import Mathlib

/-! Observer pattern (`BehavioralPatterns/Observer/C++/main.cpp`)

A shallow embedding of the `Subject` / `Observer` classes.  Objects live in a
store addressed by pointer values; every member function becomes a function
from store to store.  The store is total: each pointer value denotes a slot, and
the member functions are embedded as they act on the slots they are given.
Object lifetime is kept beside the store: a destructor marks its object as
destroyed and a constructor starts a new lifetime at its address, and the
`Checked` versions of the calls report the use of a destroyed object as
undefined instead of running on the slot.  Console output is kept as the list of
strings sent to `std::cout`, and every entry into `Observer::Update` is
recorded in a history so that the order and payload of the calls can be stated.
-/

/-- Pointer value of an `IObserver *`. -/
abbrev ObsRef := Nat

/-- Address of a `Subject` (the target of a `Subject &`). -/
abbrev SubjRef := Nat

/-- Private data members of `class Subject`. -/
structure Subject where
  list_observer_ : List ObsRef
  message_ : String

/-- Data members of `class Observer` (the static counter lives in `World`). -/
structure Observer where
  message_from_subject_ : String
  subject_ : SubjRef
  number_ : Int

/-- Whole program state: both object stores, the static `Observer::static_number_`,
the text written to `std::cout`, the history of `Observer::Update` calls
(receiver and argument, oldest first), and the addresses whose object has been
destroyed and not constructed again. -/
structure World where
  subjects : SubjRef → Subject
  observers : ObsRef → Observer
  static_number_ : Int
  cout : List String
  updates : List (ObsRef × String)
  destroyedObservers : List ObsRef
  destroyedSubjects : List SubjRef

/-- Value of a 32-bit two's-complement `int` holding the mathematical integer `x`. -/
def int_wrap (x : Int) : Int := (x + 2 ^ 31) % 2 ^ 32 - 2 ^ 31

/-- The member `std::list<T>::remove(value)`: erases every element that
compares equal to `value`, keeping the others in order. -/
def list_remove : List ObsRef → ObsRef → List ObsRef
  | [], _ => []
  | x :: xs, value => if x = value then list_remove xs value else x :: list_remove xs value

/-- Store update of one subject. -/
def World.setSubject (w : World) (s : SubjRef) (v : Subject) : World :=
  { w with subjects := fun r => if r = s then v else w.subjects r }

/-- Store update of one observer. -/
def World.setObserver (w : World) (o : ObsRef) (v : Observer) : World :=
  { w with observers := fun r => if r = o then v else w.observers r }

/-- Send one piece of text to `std::cout`. -/
def World.print (w : World) (text : String) : World :=
  { w with cout := w.cout ++ [text] }

/-- The state before `main` runs: `static_number_ = 0`, nothing printed, no
call made, nothing destroyed; every subject slot is a default-constructed
`Subject`. -/
def World.initial : World :=
  { subjects := fun _ => { list_observer_ := [], message_ := "" }
    observers := fun _ => { message_from_subject_ := "", subject_ := 0, number_ := 0 }
    static_number_ := 0
    cout := []
    updates := []
    destroyedObservers := []
    destroyedSubjects := [] }

/-- `Subject::Attach`: `list_observer_.push_back(observer)`. -/
def Subject.Attach (w : World) (s : SubjRef) (observer : ObsRef) : World :=
  w.setSubject s { w.subjects s with
    list_observer_ := (w.subjects s).list_observer_ ++ [observer] }

/-- `Subject::Detach`: `list_observer_.remove(obserber)`. -/
def Subject.Detach (w : World) (s : SubjRef) (obserber : ObsRef) : World :=
  w.setSubject s { w.subjects s with
    list_observer_ := list_remove (w.subjects s).list_observer_ obserber }

/-- `Subject::HowManyObserver`: prints `list_observer_.size()`. -/
def Subject.HowManyObserver (w : World) (s : SubjRef) : World :=
  w.print ("There are " ++ toString (w.subjects s).list_observer_.length
    ++ " observers in the list.\n")

/-- `Observer::Update`: stores the argument in `message_from_subject_`, then prints. -/
def Observer.Update (w : World) (self : ObsRef) (message_from_subject : String) : World :=
  let w1 : World := { w with updates := w.updates ++ [(self, message_from_subject)] }
  let w2 := w1.setObserver self { w1.observers self with
    message_from_subject_ := message_from_subject }
  w2.print ("Observer \"" ++ toString (w2.observers self).number_
    ++ "\": a new message is available --> "
    ++ (w2.observers self).message_from_subject_ ++ "\n")

/-- `Subject::Notify`: `HowManyObserver()`, then one `Update(message_)` per list
entry, front to back.  `message_` is passed by reference, so it is read from
the current state at each call. -/
def Subject.Notify (w : World) (s : SubjRef) : World :=
  (w.subjects s).list_observer_.foldl
    (fun acc observer => Observer.Update acc observer (acc.subjects s).message_)
    (Subject.HowManyObserver w s)

/-- `Subject::CreateMessage`: assigns `message_`, then `Notify()`. -/
def Subject.CreateMessage (w : World) (s : SubjRef) (message : String := "empty") : World :=
  Subject.Notify (w.setSubject s { w.subjects s with message_ := message }) s

/-- `Subject::SomeBusinessLogic`. -/
def Subject.SomeBusinessLogic (w : World) (s : SubjRef) : World :=
  (Subject.Notify
    (w.setSubject s { w.subjects s with message_ := "change message message" }) s).print
    "I'm about to do some thing important\n"

/-- `Subject::~Subject`: the body prints, then the lifetime of the subject (and
of its members `list_observer_` and `message_`) ends.  The observers the list
pointed to are not touched. -/
def Subject.destructor (w : World) (self : SubjRef) : World :=
  let w1 := w.print "Goodbye, I was the Subject.\n"
  { w1 with destroyedSubjects := self :: w1.destroyedSubjects }

/-- `Observer::Observer(Subject &subject)` run on the storage at `self`: a new
lifetime starts at `self`, members are initialised (`message_from_subject_`
empty, `subject_` bound, `number_` left as it was), then the body attaches
`this`, pre-increments `static_number_`, prints it and copies it into `number_`. -/
def Observer.Observer (w : World) (self : ObsRef) (subject : SubjRef) : World :=
  let w0 : World := { w with
    destroyedObservers := w.destroyedObservers.filter (fun r => decide (r ≠ self)) }
  let w1 := w0.setObserver self { w0.observers self with
    message_from_subject_ := "", subject_ := subject }
  let w2 := Subject.Attach w1 (w1.observers self).subject_ self
  let w3 : World := { w2 with static_number_ := int_wrap (w2.static_number_ + 1) }
  let w4 := w3.print ("Hi, I'm the Observer \"" ++ toString w3.static_number_ ++ "\".\n")
  w4.setObserver self { w4.observers self with number_ := w4.static_number_ }

/-- `Observer::~Observer`: the body prints, then the lifetime of the observer
ends.  Nothing is detached: no subject is touched. -/
def Observer.destructor (w : World) (self : ObsRef) : World :=
  let w1 := w.print
    ("Goodbye, I was the Observer \"" ++ toString (w.observers self).number_ ++ "\".\n")
  { w1 with destroyedObservers := self :: w1.destroyedObservers }

/-- `Observer::RemoveMeFromList`: `subject_.Detach(this)`, then prints. -/
def Observer.RemoveMeFromList (w : World) (self : ObsRef) : World :=
  (Subject.Detach w (w.observers self).subject_ self).print
    ("Observer \"" ++ toString (w.observers self).number_ ++ "\" removed from the list.\n")

/-- The loop of `Subject::Notify` started in any state `acc` over any list. -/
def notifyLoop (s : SubjRef) (acc : World) (l : List ObsRef) : World :=
  l.foldl (fun acc observer => Observer.Update acc observer (acc.subjects s).message_) acc

/-! ## Operation sequences and sample states -/

/-- A fresh subject at address `0` on which the observer reference `7` has been
attached twice. -/
def attachedTwice : World :=
  Subject.Attach (Subject.Attach World.initial 0 7) 0 7

/-- A subscription-management call on one subject. -/
inductive SubOp where
  | attach (o : ObsRef)
  | detach (o : ObsRef)
deriving DecidableEq, Repr

/-- Perform one subscription-management call on subject `s`. -/
def SubOp.apply (w : World) (s : SubjRef) : SubOp → World
  | .attach o => Subject.Attach w s o
  | .detach o => Subject.Detach w s o

/-- Perform a sequence of `Attach` / `Detach` calls on subject `s`, left to right. -/
def runSubOps (w : World) (s : SubjRef) : List SubOp → World
  | [] => w
  | op :: rest => runSubOps (op.apply w s) s rest

/-- Number of `Attach` calls in a sequence. -/
def attachCalls : List SubOp → Nat
  | [] => 0
  | .attach _ :: rest => attachCalls rest + 1
  | .detach _ :: rest => attachCalls rest

/-- Number of `Detach` calls in a sequence whose observer was in the list of
subject `s` at the moment of the call. -/
def detachCallsPresent (w : World) (s : SubjRef) : List SubOp → Nat
  | [] => 0
  | .attach o :: rest => detachCallsPresent (Subject.Attach w s o) s rest
  | .detach o :: rest =>
    (if o ∈ (w.subjects s).list_observer_ then 1 else 0)
      + detachCallsPresent (Subject.Detach w s o) s rest

/-- Number of list entries erased by the `Detach` calls of a sequence: each call
erases as many entries as the list of subject `s` holds of its observer at the
moment of the call. -/
def entriesDetached (w : World) (s : SubjRef) : List SubOp → Nat
  | [] => 0
  | .attach o :: rest => entriesDetached (Subject.Attach w s o) s rest
  | .detach o :: rest =>
    (w.subjects s).list_observer_.count o + entriesDetached (Subject.Detach w s o) s rest

/-- The value `list_observer_.size()` that `HowManyObserver` reports. -/
def observerCount (w : World) (s : SubjRef) : Nat :=
  (w.subjects s).list_observer_.length

/-- Two observers constructed on subject `0`, at the addresses `1` and `2`. -/
def twoObservers : World :=
  Observer.Observer (Observer.Observer World.initial 1 0) 2 0

/-- One call of the public interface, or the construction or destruction of
an object. -/
inductive Op where
  | construct (self : ObsRef) (subject : SubjRef)
  | attach (s : SubjRef) (o : ObsRef)
  | detach (s : SubjRef) (o : ObsRef)
  | notify (s : SubjRef)
  | createMessage (s : SubjRef) (message : String)
  | howManyObserver (s : SubjRef)
  | someBusinessLogic (s : SubjRef)
  | update (o : ObsRef) (message : String)
  | removeMeFromList (o : ObsRef)
  | destroyObserver (o : ObsRef)
  | destroySubject (s : SubjRef)
deriving DecidableEq, Repr

/-- Whether the operation is `new Observer(subject)`. -/
def Op.isConstruct : Op → Bool
  | .construct _ _ => true
  | _ => false

/-- Effect of one operation on the program state. -/
def Op.step (w : World) : Op → World
  | .construct self subject => Observer.Observer w self subject
  | .attach s o => Subject.Attach w s o
  | .detach s o => Subject.Detach w s o
  | .notify s => Subject.Notify w s
  | .createMessage s message => Subject.CreateMessage w s message
  | .howManyObserver s => Subject.HowManyObserver w s
  | .someBusinessLogic s => Subject.SomeBusinessLogic w s
  | .update o message => Observer.Update w o message
  | .removeMeFromList o => Observer.RemoveMeFromList w o
  | .destroyObserver o => Observer.destructor w o
  | .destroySubject s => Subject.destructor w s

/-- Perform a sequence of operations, left to right. -/
def run (w : World) : List Op → World
  | [] => w
  | op :: rest => run (op.step w) rest

/-- Number of observer constructions in a sequence of operations. -/
def constructions : List Op → Nat
  | [] => 0
  | op :: rest => (if op.isConstruct then 1 else 0) + constructions rest

/-- Addresses at which the sequence constructs an observer. -/
def constructedRefs : List Op → List ObsRef
  | [] => []
  | .construct self _ :: rest => self :: constructedRefs rest
  | _ :: rest => constructedRefs rest

/-- The `number_` each constructed observer has when its constructor returns,
in construction order, for a sequence of operations run from `w`. -/
def identitiesAssigned (w : World) : List Op → List Int
  | [] => []
  | .construct self subject :: rest =>
    ((Observer.Observer w self subject).observers self).number_
      :: identitiesAssigned (Observer.Observer w self subject) rest
  | op :: rest => identitiesAssigned (op.step w) rest

/-- The implicit default constructor of `Subject` run on the storage at `self`:
a new lifetime starts at `self`, with an empty `list_observer_` and an empty
`message_`. -/
def Subject.Subject (w : World) (self : SubjRef) : World :=
  let w0 : World := { w with
    destroyedSubjects := w.destroyedSubjects.filter (fun r => decide (r ≠ self)) }
  w0.setSubject self { list_observer_ := [], message_ := "" }

/-- The function `main` of the program.  The addresses returned by the `new` expressions are
parameters; the result is the program state when `main` returns. -/
def Program.main (w : World) (subject : SubjRef)
    (observer1 observer2 observer3 observer4 observer5 : ObsRef) : World :=
  let w := Subject.Subject w subject
  let w := Observer.Observer w observer1 subject
  let w := Observer.Observer w observer2 subject
  let w := Observer.Observer w observer3 subject
  let w := Subject.CreateMessage w subject "hello world"
  let w := Observer.RemoveMeFromList w observer3
  let w := Subject.CreateMessage w subject "The weather is hot today! :p"
  let w := Observer.Observer w observer4 subject
  let w := Observer.RemoveMeFromList w observer2
  let w := Observer.Observer w observer5 subject
  let w := Subject.CreateMessage w subject "My new car is great! ;)"
  let w := Observer.RemoveMeFromList w observer5
  let w := Observer.RemoveMeFromList w observer4
  let w := Observer.RemoveMeFromList w observer1
  let w := Observer.destructor w observer1
  let w := Observer.destructor w observer2
  let w := Observer.destructor w observer3
  let w := Observer.destructor w observer4
  let w := Observer.destructor w observer5
  Subject.destructor w subject

/-- First round of the driver scenario on subject `s`: attach `o1`, `o2`, `o3`
in order, then `CreateMessage(t1)`. -/
def scenarioRound1 (w : World) (s : SubjRef) (o1 o2 o3 : ObsRef) (t1 : String) : World :=
  Subject.CreateMessage (Subject.Attach (Subject.Attach (Subject.Attach w s o1) s o2) s o3) s t1

/-- Second round: detach `o3`, then `CreateMessage(t2)`. -/
def scenarioRound2 (w : World) (s : SubjRef) (o1 o2 o3 : ObsRef) (t1 t2 : String) : World :=
  Subject.CreateMessage (Subject.Detach (scenarioRound1 w s o1 o2 o3 t1) s o3) s t2

/-- Third round: attach `o4`, detach `o2`, attach `o5`, then `CreateMessage(t3)`. -/
def scenarioRound3 (w : World) (s : SubjRef) (o1 o2 o3 o4 o5 : ObsRef)
    (t1 t2 t3 : String) : World :=
  Subject.CreateMessage
    (Subject.Attach (Subject.Detach (Subject.Attach
      (scenarioRound2 w s o1 o2 o3 t1 t2) s o4) s o2) s o5) s t3

/-- Whether the operation appends `o` to the list of subject `s`: `s.Attach(o)`
itself, or the construction of an observer at `o` on `s`. -/
def Op.attaches (s : SubjRef) (o : ObsRef) : Op → Bool
  | .attach s1 o1 => decide (s1 = s ∧ o1 = o)
  | .construct self subject => decide (subject = s ∧ self = o)
  | _ => false

/-- The `Update` calls that have `o` as receiver, in order. -/
def callsOn (o : ObsRef) (calls : List (ObsRef × String)) : List (ObsRef × String) :=
  calls.filter (fun c => decide (c.1 = o))

/-! ## Calls with object lifetime taken into account -/

/-- Why a call has undefined behaviour: it uses an object whose lifetime has
ended. -/
inductive Fault where
  | destroyedObserver (o : ObsRef)
  | destroyedSubject (s : SubjRef)
deriving DecidableEq, Repr

/-- The call `observer->Update(message)`: undefined on a destroyed observer,
otherwise `Observer::Update`. -/
def Checked.Update (w : World) (self : ObsRef) (message_from_subject : String) :
    Except Fault World :=
  if self ∈ w.destroyedObservers then .error (.destroyedObserver self)
  else .ok (Observer.Update w self message_from_subject)

/-- The loop of `Subject::Notify`, entry by entry, stopping at the first call
made on a destroyed observer. -/
def Checked.notifyEach (s : SubjRef) : World → List ObsRef → Except Fault World
  | acc, [] => .ok acc
  | acc, observer :: rest =>
    match Checked.Update acc observer (acc.subjects s).message_ with
    | .error fault => .error fault
    | .ok acc1 => Checked.notifyEach s acc1 rest

/-- The call `subject.Notify()`: undefined on a destroyed subject, otherwise
`HowManyObserver()` and the loop over the list. -/
def Checked.Notify (w : World) (s : SubjRef) : Except Fault World :=
  if s ∈ w.destroyedSubjects then .error (.destroyedSubject s)
  else Checked.notifyEach s (Subject.HowManyObserver w s) (w.subjects s).list_observer_

/-- The call `observer->RemoveMeFromList()`: undefined on a destroyed observer
and when its `subject_` refers to a destroyed subject, otherwise
`Observer::RemoveMeFromList`. -/
def Checked.RemoveMeFromList (w : World) (self : ObsRef) : Except Fault World :=
  if self ∈ w.destroyedObservers then .error (.destroyedObserver self)
  else if (w.observers self).subject_ ∈ w.destroyedSubjects then
    .error (.destroyedSubject (w.observers self).subject_)
  else .ok (Observer.RemoveMeFromList w self)

/-! ## Basic facts about the store -/

@[simp] theorem World.print_subjects (w : World) (t : String) :
    (w.print t).subjects = w.subjects := rfl

@[simp] theorem World.print_observers (w : World) (t : String) :
    (w.print t).observers = w.observers := rfl

@[simp] theorem World.print_updates (w : World) (t : String) :
    (w.print t).updates = w.updates := rfl

@[simp] theorem World.print_static (w : World) (t : String) :
    (w.print t).static_number_ = w.static_number_ := rfl

@[simp] theorem Observer.Update_subjects (w : World) (o : ObsRef) (m : String) :
    (Observer.Update w o m).subjects = w.subjects := rfl

@[simp] theorem Observer.Update_updates (w : World) (o : ObsRef) (m : String) :
    (Observer.Update w o m).updates = w.updates ++ [(o, m)] := rfl

@[simp] theorem Observer.Update_static (w : World) (o : ObsRef) (m : String) :
    (Observer.Update w o m).static_number_ = w.static_number_ := rfl

theorem Observer.Update_observers_self (w : World) (o : ObsRef) (m : String) :
    ((Observer.Update w o m).observers o).message_from_subject_ = m := by
  simp [Observer.Update, World.setObserver, World.print]

theorem Observer.Update_observers_other (w : World) (o r : ObsRef) (m : String)
    (h : r ≠ o) : (Observer.Update w o m).observers r = w.observers r := by
  simp [Observer.Update, World.setObserver, World.print, h]

/-! ## The notification loop -/

theorem Subject.Notify_eq_loop (w : World) (s : SubjRef) :
    Subject.Notify w s
      = notifyLoop s (Subject.HowManyObserver w s) (w.subjects s).list_observer_ := rfl

theorem notifyLoop_subjects (s : SubjRef) (l : List ObsRef) (acc : World) :
    (notifyLoop s acc l).subjects = acc.subjects := by
  induction l generalizing acc with
  | nil => rfl
  | cons o l ih =>
    show (notifyLoop s (Observer.Update acc o (acc.subjects s).message_) l).subjects = _
    rw [ih]; rfl

theorem notifyLoop_static (s : SubjRef) (l : List ObsRef) (acc : World) :
    (notifyLoop s acc l).static_number_ = acc.static_number_ := by
  induction l generalizing acc with
  | nil => rfl
  | cons o l ih =>
    show (notifyLoop s (Observer.Update acc o (acc.subjects s).message_) l).static_number_ = _
    rw [ih]; rfl

theorem notifyLoop_updates (s : SubjRef) (l : List ObsRef) (acc : World) :
    (notifyLoop s acc l).updates
      = acc.updates ++ l.map (fun o => (o, (acc.subjects s).message_)) := by
  induction l generalizing acc with
  | nil => simp [notifyLoop]
  | cons o l ih =>
    show (notifyLoop s (Observer.Update acc o (acc.subjects s).message_) l).updates = _
    rw [ih]; simp

theorem notifyLoop_observers_not_mem (s : SubjRef) (l : List ObsRef) (acc : World)
    (r : ObsRef) (h : r ∉ l) : (notifyLoop s acc l).observers r = acc.observers r := by
  induction l generalizing acc with
  | nil => rfl
  | cons o l ih =>
    have hr : r ≠ o := fun e => h (e ▸ List.mem_cons_self _ _)
    have hl : r ∉ l := fun e => h (List.mem_cons_of_mem _ e)
    show (notifyLoop s (Observer.Update acc o (acc.subjects s).message_) l).observers r = _
    rw [ih _ hl, Observer.Update_observers_other _ _ _ _ hr]

theorem notifyLoop_observers_mem (s : SubjRef) (l : List ObsRef) (acc : World)
    (r : ObsRef) (h : r ∈ l) :
    ((notifyLoop s acc l).observers r).message_from_subject_ = (acc.subjects s).message_ := by
  induction l generalizing acc with
  | nil => exact absurd h (List.not_mem_nil _)
  | cons o l ih =>
    show ((notifyLoop s (Observer.Update acc o (acc.subjects s).message_) l).observers
      r).message_from_subject_ = _
    by_cases hl : r ∈ l
    · rw [ih _ hl]; rfl
    · have hr : r = o := by
        rcases List.mem_cons.mp h with e | e
        · exact e
        · exact absurd e hl
      subst hr
      rw [notifyLoop_observers_not_mem _ _ _ _ hl, Observer.Update_observers_self]

/-- Fields of an observer other than the cached message are never written by the loop. -/
theorem notifyLoop_observers_frame (s : SubjRef) (l : List ObsRef) (acc : World) (r : ObsRef) :
    ((notifyLoop s acc l).observers r).number_ = (acc.observers r).number_
    ∧ ((notifyLoop s acc l).observers r).subject_ = (acc.observers r).subject_ := by
  induction l generalizing acc with
  | nil => exact ⟨rfl, rfl⟩
  | cons o l ih =>
    show ((notifyLoop s (Observer.Update acc o (acc.subjects s).message_) l).observers r).number_
        = _ ∧
      ((notifyLoop s (Observer.Update acc o (acc.subjects s).message_) l).observers r).subject_
        = _
    rw [(ih (Observer.Update acc o (acc.subjects s).message_)).1,
      (ih (Observer.Update acc o (acc.subjects s).message_)).2]
    by_cases hr : r = o
    · subst hr; simp [Observer.Update, World.setObserver, World.print]
    · rw [Observer.Update_observers_other _ _ _ _ hr]; exact ⟨rfl, rfl⟩

/-! ## Claims -/

/-- C1: `Subject::Notify` calls `Update` exactly once per entry of the observer
list, in list order, each time with the subject's message: the calls it adds to
the history are exactly `[(o, m) for o in L]`, and afterwards every observer
occurring in `L` holds `m` as its cached message. -/
theorem C1_Notify_updates_each_entry_in_order (w : World) (s : SubjRef) :
    (Subject.Notify w s).updates
        = w.updates ++ (w.subjects s).list_observer_.map
            (fun o => (o, (w.subjects s).message_))
    ∧ ∀ o, o ∈ (w.subjects s).list_observer_ →
        ((Subject.Notify w s).observers o).message_from_subject_ = (w.subjects s).message_ := by
  refine ⟨?_, ?_⟩
  · rw [Subject.Notify_eq_loop, notifyLoop_updates]; rfl
  · intro o ho
    rw [Subject.Notify_eq_loop, notifyLoop_observers_mem _ _ _ _ ho]; rfl

/-! ## Facts about `std::list::remove` and the subject store -/

theorem list_remove_eq_filter (l : List ObsRef) (v : ObsRef) :
    list_remove l v = l.filter (fun x => decide (x ≠ v)) := by
  induction l with
  | nil => rfl
  | cons x xs ih =>
    by_cases h : x = v
    · simp [list_remove, h, ih]
    · simp [list_remove, h, ih]

theorem list_remove_not_mem (l : List ObsRef) (v : ObsRef) : v ∉ list_remove l v := by
  rw [list_remove_eq_filter]; simp [List.mem_filter]

theorem list_remove_count_self (l : List ObsRef) (v : ObsRef) :
    (list_remove l v).count v = 0 :=
  List.count_eq_zero_of_not_mem (list_remove_not_mem l v)

theorem list_remove_count_other (l : List ObsRef) (v p : ObsRef) (h : p ≠ v) :
    (list_remove l v).count p = l.count p := by
  induction l with
  | nil => rfl
  | cons x xs ih =>
    by_cases hx : x = v
    · simp [list_remove, hx, ih, List.count_cons]
      intro e; exact absurd e.symm h
    · simp [list_remove, hx, ih, List.count_cons]

theorem list_remove_of_not_mem (l : List ObsRef) (v : ObsRef) (h : v ∉ l) :
    list_remove l v = l := by
  induction l with
  | nil => rfl
  | cons x xs ih =>
    have hx : x ≠ v := fun e => h (e ▸ List.mem_cons_self _ _)
    have hxs : v ∉ xs := fun e => h (List.mem_cons_of_mem _ e)
    simp [list_remove, hx, ih hxs]

theorem list_remove_idem (l : List ObsRef) (v : ObsRef) :
    list_remove (list_remove l v) v = list_remove l v :=
  list_remove_of_not_mem _ _ (list_remove_not_mem l v)

theorem list_remove_length (l : List ObsRef) (v : ObsRef) :
    (list_remove l v).length + l.count v = l.length := by
  induction l with
  | nil => rfl
  | cons x xs ih =>
    by_cases hx : x = v
    · simp [list_remove, hx, List.count_cons]; omega
    · simp [list_remove, hx, List.count_cons]; omega

theorem list_remove_mem_other (l : List ObsRef) (v p : ObsRef) (h : p ≠ v) :
    p ∈ list_remove l v ↔ p ∈ l := by
  rw [list_remove_eq_filter]; simp [List.mem_filter, h]

@[simp] theorem World.setSubject_same (w : World) (s : SubjRef) (v : Subject) :
    (w.setSubject s v).subjects s = v := by
  simp [World.setSubject]

theorem World.setSubject_other (w : World) (s r : SubjRef) (v : Subject) (h : r ≠ s) :
    (w.setSubject s v).subjects r = w.subjects r := by
  simp [World.setSubject, h]

theorem World.setSubject_self_eq (w : World) (s : SubjRef) :
    w.setSubject s (w.subjects s) = w := by
  cases w with
  | mk subjects observers static_number_ cout updates destroyedObservers destroyedSubjects =>
    simp only [World.setSubject, World.mk.injEq, and_true, true_and]
    funext r
    by_cases h : r = s
    · simp [h]
    · simp [h]

theorem World.setSubject_twice (w : World) (s : SubjRef) (u v : Subject) :
    (w.setSubject s u).setSubject s v = w.setSubject s v := by
  cases w with
  | mk subjects observers static_number_ cout updates destroyedObservers destroyedSubjects =>
    simp only [World.setSubject, World.mk.injEq, and_true, true_and]
    funext r
    by_cases h : r = s
    · simp [h]
    · simp [h]

theorem Subject.Detach_list (w : World) (s : SubjRef) (o : ObsRef) :
    ((Subject.Detach w s o).subjects s).list_observer_
      = list_remove (w.subjects s).list_observer_ o := by
  simp [Subject.Detach]

theorem Subject.Detach_message (w : World) (s : SubjRef) (o : ObsRef) :
    ((Subject.Detach w s o).subjects s).message_ = (w.subjects s).message_ := by
  simp [Subject.Detach]

theorem Subject.Detach_of_not_mem (w : World) (s : SubjRef) (o : ObsRef)
    (h : o ∉ (w.subjects s).list_observer_) : Subject.Detach w s o = w := by
  unfold Subject.Detach
  rw [list_remove_of_not_mem _ _ h]
  exact World.setSubject_self_eq w s

theorem Subject.Detach_idem (w : World) (s : SubjRef) (o : ObsRef) :
    Subject.Detach (Subject.Detach w s o) s o = Subject.Detach w s o :=
  Subject.Detach_of_not_mem _ _ _ (by
    rw [Subject.Detach_list]; exact list_remove_not_mem _ _)

/-- C2 (as stated, refuted): with the observer `7` attached twice, it occurs
twice in the list, yet after one `Detach(7)` it does not occur `2 - 1` times:
both entries are gone. -/
theorem C2_counterexample_both_entries_removed :
    (attachedTwice.subjects 0).list_observer_.count 7 = 2
    ∧ ((Subject.Detach attachedTwice 0 7).subjects 0).list_observer_.count 7 ≠ 2 - 1
    ∧ ((Subject.Detach attachedTwice 0 7).subjects 0).list_observer_ = [] := by
  decide

/-- C2 (amended): `Subject::Detach(o)` erases every entry equal to `o`: afterwards
`o` occurs zero times, the list is the old one with exactly the entries equal to
`o` dropped, so every other entry keeps its multiplicity and relative order, and
the message is untouched. -/
theorem C2_Detach_removes_every_matching_entry (w : World) (s : SubjRef) (o : ObsRef) :
    ((Subject.Detach w s o).subjects s).list_observer_.count o = 0
    ∧ ((Subject.Detach w s o).subjects s).list_observer_
        = (w.subjects s).list_observer_.filter (fun x => decide (x ≠ o))
    ∧ (∀ p, p ≠ o → ((Subject.Detach w s o).subjects s).list_observer_.count p
        = (w.subjects s).list_observer_.count p)
    ∧ ((Subject.Detach w s o).subjects s).list_observer_.length
        + (w.subjects s).list_observer_.count o = (w.subjects s).list_observer_.length := by
  rw [Subject.Detach_list]
  exact ⟨list_remove_count_self _ _, list_remove_eq_filter _ _,
    fun p hp => list_remove_count_other _ _ _ hp, list_remove_length _ _⟩

/-- C4: `Subject::Attach(o)` appends `o` at the tail whether or not it is already
in the list, keeps the existing entries and the message, and so grows the list
by exactly one. -/
theorem C4_Attach_appends_at_tail (w : World) (s : SubjRef) (o : ObsRef) :
    ((Subject.Attach w s o).subjects s).list_observer_
        = (w.subjects s).list_observer_ ++ [o]
    ∧ ((Subject.Attach w s o).subjects s).message_ = (w.subjects s).message_
    ∧ ((Subject.Attach w s o).subjects s).list_observer_.length
        = (w.subjects s).list_observer_.length + 1 := by
  simp [Subject.Attach]

/-! ## Counting over sequences of `Attach` / `Detach` -/

theorem observerCount_Attach (w : World) (s : SubjRef) (o : ObsRef) :
    observerCount (Subject.Attach w s o) s = observerCount w s + 1 := by
  simp [observerCount, Subject.Attach]

theorem observerCount_Detach (w : World) (s : SubjRef) (o : ObsRef) :
    observerCount (Subject.Detach w s o) s + (w.subjects s).list_observer_.count o
      = observerCount w s := by
  simp only [observerCount, Subject.Detach_list]
  exact list_remove_length _ _

theorem runSubOps_count (s : SubjRef) (ops : List SubOp) (w : World) :
    observerCount (runSubOps w s ops) s + entriesDetached w s ops
      = observerCount w s + attachCalls ops := by
  induction ops generalizing w with
  | nil => rfl
  | cons op rest ih =>
    cases op with
    | attach o =>
      have h := ih (Subject.Attach w s o)
      rw [observerCount_Attach] at h
      simp only [runSubOps, SubOp.apply, entriesDetached, attachCalls]
      omega
    | detach o =>
      have h := ih (Subject.Detach w s o)
      have h2 := observerCount_Detach w s o
      simp only [runSubOps, SubOp.apply, entriesDetached, attachCalls]
      omega

/-- C3 (as stated, refuted): on a fresh subject, `Attach(7); Attach(7); Detach(7)`
is two `Attach` calls and one `Detach` call that found its observer, yet the
reported count is `0`, not `2 - 1`, and `7` is no longer registered. -/
theorem C3_counterexample_attach_twice_detach_once :
    attachCalls [SubOp.attach 7, SubOp.attach 7, SubOp.detach 7] = 2
    ∧ detachCallsPresent World.initial 0 [SubOp.attach 7, SubOp.attach 7, SubOp.detach 7] = 1
    ∧ observerCount
        (runSubOps World.initial 0 [SubOp.attach 7, SubOp.attach 7, SubOp.detach 7]) 0 = 0
    ∧ observerCount
        (runSubOps World.initial 0 [SubOp.attach 7, SubOp.attach 7, SubOp.detach 7]) 0
        ≠ attachCalls [SubOp.attach 7, SubOp.attach 7, SubOp.detach 7]
          - detachCallsPresent World.initial 0
              [SubOp.attach 7, SubOp.attach 7, SubOp.detach 7]
    ∧ 7 ∉ ((runSubOps World.initial 0
        [SubOp.attach 7, SubOp.attach 7, SubOp.detach 7]).subjects 0).list_observer_ := by
  decide

/-- C3 (amended): for every sequence of `Attach` and `Detach` calls on a subject
that starts with an empty list, the reported count equals the number of `Attach`
calls minus the number of entries erased by the `Detach` calls, each `Detach(o)`
erasing every entry equal to `o` present at that moment; in particular attaching
one reference twice and detaching it once leaves a count of `0` and the
reference unregistered. -/
theorem C3_count_is_attaches_minus_entries_detached (w : World) (s : SubjRef)
    (ops : List SubOp) (hempty : (w.subjects s).list_observer_ = []) :
    observerCount (runSubOps w s ops) s = attachCalls ops - entriesDetached w s ops
    ∧ entriesDetached w s ops ≤ attachCalls ops
    ∧ ∀ o, observerCount
          (runSubOps w s [SubOp.attach o, SubOp.attach o, SubOp.detach o]) s = 0
        ∧ o ∉ ((runSubOps w s
            [SubOp.attach o, SubOp.attach o, SubOp.detach o]).subjects s).list_observer_ := by
  have h := runSubOps_count s ops w
  have h0 : observerCount w s = 0 := by simp [observerCount, hempty]
  refine ⟨by omega, by omega, fun o => ?_⟩
  have hl : ((runSubOps w s
      [SubOp.attach o, SubOp.attach o, SubOp.detach o]).subjects s).list_observer_ = [] := by
    simp [runSubOps, SubOp.apply, Subject.Detach, Subject.Attach, hempty, list_remove]
  exact ⟨by simp [observerCount, hl], by simp [hl]⟩

/-- C3 instance: on the initial state, `Attach(1); Attach(2); Detach(1)` on
subject `0` reports `2 - 1` observers. -/
theorem C3_count_is_attaches_minus_entries_detached_witness :
    (World.initial.subjects 0).list_observer_ = []
    ∧ observerCount
        (runSubOps World.initial 0 [SubOp.attach 1, SubOp.attach 2, SubOp.detach 1]) 0
      = attachCalls [SubOp.attach 1, SubOp.attach 2, SubOp.detach 1]
        - entriesDetached World.initial 0 [SubOp.attach 1, SubOp.attach 2, SubOp.detach 1] :=
  ⟨rfl, (C3_count_is_attaches_minus_entries_detached World.initial 0
    [SubOp.attach 1, SubOp.attach 2, SubOp.detach 1] rfl).1⟩

/-! ## `Notify`, `CreateMessage` and `RemoveMeFromList` as state transformers -/

theorem Subject.Notify_subjects (w : World) (s : SubjRef) :
    (Subject.Notify w s).subjects = w.subjects := by
  rw [Subject.Notify_eq_loop, notifyLoop_subjects]; rfl

theorem Subject.Notify_updates (w : World) (s : SubjRef) :
    (Subject.Notify w s).updates
      = w.updates ++ (w.subjects s).list_observer_.map
          (fun o => (o, (w.subjects s).message_)) := by
  rw [Subject.Notify_eq_loop, notifyLoop_updates]; rfl

theorem Subject.Notify_observers_mem (w : World) (s : SubjRef) (o : ObsRef)
    (h : o ∈ (w.subjects s).list_observer_) :
    ((Subject.Notify w s).observers o).message_from_subject_ = (w.subjects s).message_ := by
  rw [Subject.Notify_eq_loop, notifyLoop_observers_mem _ _ _ _ h]; rfl

theorem Subject.Notify_observers_not_mem (w : World) (s : SubjRef) (o : ObsRef)
    (h : o ∉ (w.subjects s).list_observer_) :
    (Subject.Notify w s).observers o = w.observers o := by
  rw [Subject.Notify_eq_loop, notifyLoop_observers_not_mem _ _ _ _ h]; rfl

theorem Subject.CreateMessage_subject (w : World) (s : SubjRef) (t : String) :
    (Subject.CreateMessage w s t).subjects s
      = { w.subjects s with message_ := t } := by
  unfold Subject.CreateMessage
  rw [Subject.Notify_subjects]; simp

theorem Observer.RemoveMeFromList_subject (w : World) (o : ObsRef) :
    (Observer.RemoveMeFromList w o).subjects (w.observers o).subject_
      = { w.subjects (w.observers o).subject_ with
          list_observer_ := list_remove (w.subjects (w.observers o).subject_).list_observer_ o }
    ∧ (Observer.RemoveMeFromList w o).observers = w.observers
    ∧ (Observer.RemoveMeFromList w o).updates = w.updates
    ∧ (Observer.RemoveMeFromList w o).static_number_ = w.static_number_ := by
  simp [Observer.RemoveMeFromList, Subject.Detach]
  exact ⟨rfl, rfl, rfl⟩

/-- C5: `Subject::CreateMessage(t)` sets the message to `t` and then notifies:
afterwards the message is `t`, the observer list is the same, the `Update` calls
made are exactly `[(o, t) for o in L]` (the new text), and every observer in `L`
holds `t`; without an argument the text is `"empty"`. -/
theorem C5_CreateMessage_sets_then_notifies (w : World) (s : SubjRef) (t : String) :
    ((Subject.CreateMessage w s t).subjects s).message_ = t
    ∧ ((Subject.CreateMessage w s t).subjects s).list_observer_
        = (w.subjects s).list_observer_
    ∧ (Subject.CreateMessage w s t).updates
        = w.updates ++ (w.subjects s).list_observer_.map (fun o => (o, t))
    ∧ (∀ o, o ∈ (w.subjects s).list_observer_ →
        ((Subject.CreateMessage w s t).observers o).message_from_subject_ = t)
    ∧ Subject.CreateMessage w s = Subject.CreateMessage w s "empty" := by
  refine ⟨?_, ?_, ?_, ?_, rfl⟩
  · rw [Subject.CreateMessage_subject]
  · rw [Subject.CreateMessage_subject]
  · unfold Subject.CreateMessage
    rw [Subject.Notify_updates]; simp; rfl
  · intro o ho
    unfold Subject.CreateMessage
    rw [Subject.Notify_observers_mem _ _ _ (by simpa using ho)]; simp

/-- C6: when `o` does not occur in the observer list, `Subject::Detach(o)` changes
nothing at all: the resulting state (list, message and everything else) is the
state before, and the call, being a total function, signals no error. -/
theorem C6_Detach_absent_is_noop (w : World) (s : SubjRef) (o : ObsRef)
    (habsent : o ∉ (w.subjects s).list_observer_) :
    Subject.Detach w s o = w
    ∧ ((Subject.Detach w s o).subjects s).list_observer_ = (w.subjects s).list_observer_
    ∧ ((Subject.Detach w s o).subjects s).message_ = (w.subjects s).message_ := by
  rw [Subject.Detach_of_not_mem w s o habsent]
  exact ⟨rfl, rfl, rfl⟩

/-- C6 instance: detaching `7` from the list `[3]` leaves the state as it was. -/
theorem C6_Detach_absent_is_noop_witness :
    7 ∉ ((Subject.Attach World.initial 0 3).subjects 0).list_observer_
    ∧ ((Subject.Detach (Subject.Attach World.initial 0 3) 0 7).subjects 0).list_observer_
        = [3] :=
  ⟨by decide,
    (C6_Detach_absent_is_noop (Subject.Attach World.initial 0 3) 0 7 (by decide)).2.1.trans
      (by decide)⟩

/-- C7: detaching is idempotent, also when the list holds the observer several
times: a second `Subject::Detach(o)` leaves the whole state as the first one
left it, and after a second `o.RemoveMeFromList()` the subjects, the observers,
the identity counter and the `Update` history are those after the first. -/
theorem C7_Detach_idempotent (w : World) (s : SubjRef) (o : ObsRef) :
    Subject.Detach (Subject.Detach w s o) s o = Subject.Detach w s o
    ∧ (Observer.RemoveMeFromList (Observer.RemoveMeFromList w o) o).subjects
        = (Observer.RemoveMeFromList w o).subjects
    ∧ (Observer.RemoveMeFromList (Observer.RemoveMeFromList w o) o).observers
        = (Observer.RemoveMeFromList w o).observers
    ∧ (Observer.RemoveMeFromList (Observer.RemoveMeFromList w o) o).static_number_
        = (Observer.RemoveMeFromList w o).static_number_
    ∧ (Observer.RemoveMeFromList (Observer.RemoveMeFromList w o) o).updates
        = (Observer.RemoveMeFromList w o).updates := by
  refine ⟨Subject.Detach_idem w s o, ?_, rfl, rfl, rfl⟩
  have h := Subject.Detach_idem w (w.observers o).subject_ o
  show (Subject.Detach (Subject.Detach w (w.observers o).subject_ o)
    (w.observers o).subject_ o).subjects = (Subject.Detach w (w.observers o).subject_ o).subjects
  rw [h]

/-- After `o.RemoveMeFromList()` the list of the subject `o` is bound to is the old
one without the entries equal to `o`; the message is kept. -/
theorem Observer.RemoveMeFromList_list (w : World) (o : ObsRef) :
    ((Observer.RemoveMeFromList w o).subjects (w.observers o).subject_).list_observer_
      = (w.subjects (w.observers o).subject_).list_observer_.filter (fun p => decide (p ≠ o))
    ∧ ((Observer.RemoveMeFromList w o).subjects (w.observers o).subject_).message_
      = (w.subjects (w.observers o).subject_).message_ := by
  rw [(Observer.RemoveMeFromList_subject w o).1, ← list_remove_eq_filter]
  exact ⟨rfl, rfl⟩

/-- A notification round on any state whose list does not hold `o` makes no call
on `o` and leaves `o` as it was, while every listed observer receives the message. -/
theorem Subject.Notify_skips_absent (w : World) (s : SubjRef) (o : ObsRef)
    (h : o ∉ (w.subjects s).list_observer_) :
    (∀ c, c ∈ (w.subjects s).list_observer_.map (fun p => (p, (w.subjects s).message_)) →
        c.1 ≠ o)
    ∧ (Subject.Notify w s).observers o = w.observers o := by
  refine ⟨?_, Subject.Notify_observers_not_mem w s o h⟩
  intro c hc
  rcases List.mem_map.mp hc with ⟨p, hp, rfl⟩
  exact fun e => h (e ▸ hp)

/-- C8: let `o` be attached exactly once to its subject (the one its `subject_`
member refers to, from which `RemoveMeFromList` detaches it).  Then
`o.RemoveMeFromList()` erases exactly one entry, and a following `Notify` (or
`CreateMessage(t)`) on that subject calls `Update` exactly on the remaining
entries, in order: `o` is not among the receivers and its state is what it was,
and every other observer of the old list holds the message afterwards. -/
theorem C8_removed_observer_not_notified (w : World) (o : ObsRef) (t : String)
    (honce : (w.subjects (w.observers o).subject_).list_observer_.count o = 1) :
    ((Observer.RemoveMeFromList w o).subjects (w.observers o).subject_).list_observer_.length
        + 1 = (w.subjects (w.observers o).subject_).list_observer_.length
    ∧ ((Subject.Notify (Observer.RemoveMeFromList w o) (w.observers o).subject_).updates
        = w.updates ++ ((w.subjects (w.observers o).subject_).list_observer_.filter
            (fun p => decide (p ≠ o))).map
              (fun p => (p, (w.subjects (w.observers o).subject_).message_))
      ∧ (∀ c, c ∈ ((w.subjects (w.observers o).subject_).list_observer_.filter
            (fun p => decide (p ≠ o))).map
              (fun p => (p, (w.subjects (w.observers o).subject_).message_)) → c.1 ≠ o)
      ∧ (Subject.Notify (Observer.RemoveMeFromList w o) (w.observers o).subject_).observers o
          = w.observers o
      ∧ (∀ p, p ∈ (w.subjects (w.observers o).subject_).list_observer_ → p ≠ o →
          ((Subject.Notify (Observer.RemoveMeFromList w o)
            (w.observers o).subject_).observers p).message_from_subject_
              = (w.subjects (w.observers o).subject_).message_))
    ∧ ((Subject.CreateMessage (Observer.RemoveMeFromList w o)
          (w.observers o).subject_ t).updates
        = w.updates ++ ((w.subjects (w.observers o).subject_).list_observer_.filter
            (fun p => decide (p ≠ o))).map (fun p => (p, t))
      ∧ (∀ c, c ∈ ((w.subjects (w.observers o).subject_).list_observer_.filter
            (fun p => decide (p ≠ o))).map (fun p => (p, t)) → c.1 ≠ o)
      ∧ (Subject.CreateMessage (Observer.RemoveMeFromList w o)
          (w.observers o).subject_ t).observers o = w.observers o
      ∧ (∀ p, p ∈ (w.subjects (w.observers o).subject_).list_observer_ → p ≠ o →
          ((Subject.CreateMessage (Observer.RemoveMeFromList w o)
            (w.observers o).subject_ t).observers p).message_from_subject_ = t)) := by
  have hl := (Observer.RemoveMeFromList_list w o).1
  have hm := (Observer.RemoveMeFromList_list w o).2
  have hobs := (Observer.RemoveMeFromList_subject w o).2.1
  have hupd := (Observer.RemoveMeFromList_subject w o).2.2.1
  have hno : ∀ (m : String) c,
      c ∈ ((w.subjects (w.observers o).subject_).list_observer_.filter
        (fun p => decide (p ≠ o))).map (fun p => (p, m)) → c.1 ≠ o := by
    intro m c hc
    rcases List.mem_map.mp hc with ⟨p, hp, rfl⟩
    simpa using (List.mem_filter.mp hp).2
  have habs : o ∉ ((Observer.RemoveMeFromList w o).subjects
      (w.observers o).subject_).list_observer_ := by
    rw [hl]; simp [List.mem_filter]
  have hlen : ((Observer.RemoveMeFromList w o).subjects
      (w.observers o).subject_).list_observer_.length + 1
        = (w.subjects (w.observers o).subject_).list_observer_.length := by
    rw [(Observer.RemoveMeFromList_subject w o).1, ← honce]
    exact list_remove_length _ _
  refine ⟨hlen, ⟨?_, hno _, ?_, ?_⟩, ⟨?_, hno _, ?_, ?_⟩⟩
  · rw [Subject.Notify_updates, hl, hm, hupd]
  · rw [Subject.Notify_observers_not_mem _ _ _ habs, hobs]
  · intro p hp hpo
    rw [Subject.Notify_observers_mem _ _ _ (by
      rw [hl]; simp [List.mem_filter, hp, hpo]), hm]
  · unfold Subject.CreateMessage
    rw [Subject.Notify_updates]
    simp only [World.setSubject_same]
    rw [hl]; exact congrArg (· ++ _) hupd
  · unfold Subject.CreateMessage
    rw [Subject.Notify_observers_not_mem _ _ _ (by simpa using habs)]
    exact congrFun hobs o
  · intro p hp hpo
    unfold Subject.CreateMessage
    rw [Subject.Notify_observers_mem _ _ _ (by
      simp only [World.setSubject_same]; rw [hl]; simp [List.mem_filter, hp, hpo])]
    simp

/-- C9: constructing an `Observer` at `self` on `subject` appends `self` to that
subject's list and keeps its message; the new observer is bound to `subject`,
its cached message is the empty string and no `Update` call has been made. -/
theorem C9_constructor_self_registers (w : World) (self : ObsRef) (subject : SubjRef) :
    ((Observer.Observer w self subject).subjects subject).list_observer_
        = (w.subjects subject).list_observer_ ++ [self]
    ∧ ((Observer.Observer w self subject).subjects subject).message_
        = (w.subjects subject).message_
    ∧ ((Observer.Observer w self subject).observers self).subject_ = subject
    ∧ ((Observer.Observer w self subject).observers self).message_from_subject_ = ""
    ∧ (Observer.Observer w self subject).updates = w.updates := by
  simp [Observer.Observer, Subject.Attach, World.setObserver, World.setSubject, World.print]

/-- C8 instance: observers `1` and `2` are constructed on subject `0`; after
`2` removes itself, `CreateMessage("x")` calls `Update` on `1` only. -/
theorem C8_removed_observer_not_notified_witness :
    (twoObservers.subjects (twoObservers.observers 2).subject_).list_observer_.count 2 = 1
    ∧ (Subject.CreateMessage (Observer.RemoveMeFromList twoObservers 2)
        (twoObservers.observers 2).subject_ "x").updates = [(1, "x")] :=
  ⟨by decide,
    (C8_removed_observer_not_notified twoObservers 2 "x" (by decide)).2.2.1.trans
      (by decide)⟩

/-! ## The identity counter -/

theorem int_wrap_of_small (x : Int) (h0 : 0 ≤ x) (h1 : x < 2 ^ 31) : int_wrap x = x := by
  unfold int_wrap
  norm_num at h1 ⊢
  omega

theorem Observer.Observer_static (w : World) (self : ObsRef) (subject : SubjRef) :
    (Observer.Observer w self subject).static_number_ = int_wrap (w.static_number_ + 1) := rfl

theorem Observer.Observer_number_self (w : World) (self : ObsRef) (subject : SubjRef) :
    ((Observer.Observer w self subject).observers self).number_
      = int_wrap (w.static_number_ + 1) := by
  simp [Observer.Observer, Subject.Attach, World.setObserver, World.setSubject, World.print]

theorem Observer.Observer_number_other (w : World) (self r : ObsRef) (subject : SubjRef)
    (h : r ≠ self) :
    ((Observer.Observer w self subject).observers r).number_ = (w.observers r).number_ := by
  simp [Observer.Observer, Subject.Attach, World.setObserver, World.setSubject, World.print, h]

theorem Subject.Notify_static (w : World) (s : SubjRef) :
    (Subject.Notify w s).static_number_ = w.static_number_ := by
  rw [Subject.Notify_eq_loop, notifyLoop_static]; rfl

theorem Subject.Notify_number (w : World) (s : SubjRef) (r : ObsRef) :
    ((Subject.Notify w s).observers r).number_ = (w.observers r).number_ := by
  rw [Subject.Notify_eq_loop, (notifyLoop_observers_frame _ _ _ r).1]; rfl

theorem Observer.Update_number (w : World) (o r : ObsRef) (m : String) :
    ((Observer.Update w o m).observers r).number_ = (w.observers r).number_ := by
  by_cases h : r = o
  · subst h; simp [Observer.Update, World.setObserver, World.print]
  · rw [Observer.Update_observers_other _ _ _ _ h]

/-- Every operation other than a construction leaves the counter and every
observer's `number_` as they were. -/
theorem Op.step_identity_frame (w : World) (op : Op) (h : op.isConstruct = false) :
    (op.step w).static_number_ = w.static_number_
    ∧ ∀ r, ((op.step w).observers r).number_ = (w.observers r).number_ := by
  cases op with
  | construct self subject => simp [Op.isConstruct] at h
  | attach s o => exact ⟨rfl, fun _ => rfl⟩
  | detach s o => exact ⟨rfl, fun _ => rfl⟩
  | notify s => exact ⟨Subject.Notify_static w s, Subject.Notify_number w s⟩
  | createMessage s message =>
    exact ⟨Subject.Notify_static _ s, fun r => Subject.Notify_number _ s r⟩
  | howManyObserver s => exact ⟨rfl, fun _ => rfl⟩
  | someBusinessLogic s =>
    exact ⟨Subject.Notify_static _ s, fun r => Subject.Notify_number _ s r⟩
  | update o message => exact ⟨rfl, fun r => Observer.Update_number w o r message⟩
  | removeMeFromList o => exact ⟨rfl, fun _ => rfl⟩
  | destroyObserver o => exact ⟨rfl, fun _ => rfl⟩
  | destroySubject s => exact ⟨rfl, fun _ => rfl⟩

theorem identitiesAssigned_cons_other (w : World) (op : Op) (rest : List Op)
    (h : op.isConstruct = false) :
    identitiesAssigned w (op :: rest) = identitiesAssigned (op.step w) rest := by
  cases op <;> first | rfl | simp [Op.isConstruct] at h

theorem constructedRefs_cons_other (op : Op) (rest : List Op) (h : op.isConstruct = false) :
    constructedRefs (op :: rest) = constructedRefs rest := by
  cases op <;> first | rfl | simp [Op.isConstruct] at h

/-- Started with the counter at `n`, the constructions of a sequence receive
`n + 1, n + 2, ...` and the counter ends at `n` plus their number. -/
theorem run_counter (ops : List Op) (w : World) (n : Nat)
    (hn : w.static_number_ = (n : Int)) (hb : n + constructions ops < 2 ^ 31) :
    identitiesAssigned w ops
        = (List.range (constructions ops)).map (fun k => ((n + k + 1 : Nat) : Int))
    ∧ (run w ops).static_number_ = ((n + constructions ops : Nat) : Int) := by
  induction ops generalizing w n with
  | nil => simp [identitiesAssigned, constructions, run, hn]
  | cons op rest ih =>
    by_cases hc : op.isConstruct = true
    · cases op with
      | construct self subject =>
        simp only [constructions, Op.isConstruct, if_true] at hb ⊢
        have hw : int_wrap (w.static_number_ + 1) = ((n + 1 : Nat) : Int) := by
          rw [hn, int_wrap_of_small _ (by omega) (by push_cast; omega)]; push_cast; rfl
        have h := ih (Observer.Observer w self subject) (n + 1)
          ((Observer.Observer_static w self subject).trans hw) (by omega)
        refine ⟨?_, ?_⟩
        · simp only [identitiesAssigned]
          rw [h.1, Observer.Observer_number_self, hw, Nat.add_comm 1, List.range_succ_eq_map]
          simp only [List.map_cons, List.map_map]
          refine congrArg₂ _ rfl (List.map_congr_left fun k _ => ?_)
          simp only [Function.comp]; congr 1; omega
        · simp only [run, Op.step]
          rw [h.2]; congr 1; omega
      | _ => simp [Op.isConstruct] at hc
    · have hc2 : op.isConstruct = false := by simpa using hc
      have hf := Op.step_identity_frame w op hc2
      simp only [constructions, hc2, Bool.false_eq_true, if_false, Nat.zero_add] at hb ⊢
      have h := ih (op.step w) n (hf.1.trans hn) hb
      exact ⟨(identitiesAssigned_cons_other w op rest hc2).trans h.1, h.2⟩

/-- Invariant of the identity counter: if the observers at `refs` hold pairwise
distinct identities in `1 .. n` and the counter is `n`, the same holds after any
sequence of operations for `refs` together with the addresses constructed. -/
theorem run_identities_distinct (ops : List Op) (w : World) (n : Nat) (refs : List ObsRef)
    (hn : w.static_number_ = (n : Int)) (hb : n + constructions ops < 2 ^ 31)
    (hrange : ∀ r, r ∈ refs →
      1 ≤ (w.observers r).number_ ∧ (w.observers r).number_ ≤ (n : Int))
    (hinj : ∀ r1, r1 ∈ refs → ∀ r2, r2 ∈ refs → r1 ≠ r2 →
      (w.observers r1).number_ ≠ (w.observers r2).number_) :
    (∀ r, r ∈ refs ++ constructedRefs ops →
      1 ≤ ((run w ops).observers r).number_
      ∧ ((run w ops).observers r).number_ ≤ ((n + constructions ops : Nat) : Int))
    ∧ (∀ r1, r1 ∈ refs ++ constructedRefs ops → ∀ r2, r2 ∈ refs ++ constructedRefs ops →
      r1 ≠ r2 → ((run w ops).observers r1).number_ ≠ ((run w ops).observers r2).number_) := by
  induction ops generalizing w n refs with
  | nil => simpa [constructedRefs, constructions, run] using ⟨hrange, hinj⟩
  | cons op rest ih =>
    by_cases hc : op.isConstruct = true
    · cases op with
      | construct self subject =>
        simp only [constructions, Op.isConstruct, if_true] at hb ⊢
        have hw : int_wrap (w.static_number_ + 1) = ((n + 1 : Nat) : Int) := by
          rw [hn, int_wrap_of_small _ (by omega) (by push_cast; omega)]; push_cast; rfl
        have hself := (Observer.Observer_number_self w self subject).trans hw
        have hrange2 : ∀ r, r ∈ refs ++ [self] →
            1 ≤ ((Observer.Observer w self subject).observers r).number_
            ∧ ((Observer.Observer w self subject).observers r).number_
              ≤ ((n + 1 : Nat) : Int) := by
          intro r hr
          by_cases hrs : r = self
          · subst hrs; rw [hself]; push_cast; omega
          · have hr2 : r ∈ refs := by simpa [hrs] using hr
            rw [Observer.Observer_number_other _ _ _ _ hrs]
            have := hrange r hr2
            push_cast; omega
        have hinj2 : ∀ r1, r1 ∈ refs ++ [self] → ∀ r2, r2 ∈ refs ++ [self] → r1 ≠ r2 →
            ((Observer.Observer w self subject).observers r1).number_
              ≠ ((Observer.Observer w self subject).observers r2).number_ := by
          intro r1 h1 r2 h2 hne
          by_cases e1 : r1 = self
          · have e2 : r2 ≠ self := fun e => hne (e1.trans e.symm)
            have h2r : r2 ∈ refs := by simpa [e2] using h2
            have := hrange r2 h2r
            rw [e1, hself, Observer.Observer_number_other _ _ _ _ e2]
            push_cast; omega
          · have h1r : r1 ∈ refs := by simpa [e1] using h1
            rw [Observer.Observer_number_other _ _ _ _ e1]
            by_cases e2 : r2 = self
            · have := hrange r1 h1r
              rw [e2, hself]; push_cast; omega
            · have h2r : r2 ∈ refs := by simpa [e2] using h2
              rw [Observer.Observer_number_other _ _ _ _ e2]
              exact hinj r1 h1r r2 h2r hne
        have h := ih (Observer.Observer w self subject) (n + 1) (refs ++ [self])
          ((Observer.Observer_static w self subject).trans hw) (by omega) hrange2 hinj2
        have hmem : ∀ r, r ∈ refs ++ constructedRefs (Op.construct self subject :: rest) ↔
            r ∈ (refs ++ [self]) ++ constructedRefs rest := by
          intro r; simp [constructedRefs]
        have hcount : n + 1 + constructions rest = n + (1 + constructions rest) := by omega
        simp only [run, Op.step]
        rw [← hcount]
        exact ⟨fun r hr => h.1 r ((hmem r).mp hr),
          fun r1 h1 r2 h2 => h.2 r1 ((hmem r1).mp h1) r2 ((hmem r2).mp h2)⟩
      | _ => simp [Op.isConstruct] at hc
    · have hc2 : op.isConstruct = false := by simpa using hc
      have hf := Op.step_identity_frame w op hc2
      simp only [constructions, hc2, Bool.false_eq_true, if_false, Nat.zero_add] at hb ⊢
      rw [constructedRefs_cons_other op rest hc2]
      exact ih (op.step w) n refs (hf.1.trans hn) hb
        (fun r hr => by rw [hf.2 r]; exact hrange r hr)
        (fun r1 h1 r2 h2 hne => by rw [hf.2 r1, hf.2 r2]; exact hinj r1 h1 r2 h2 hne)

/-- C10: with the counter at `0` and fewer than `2 ^ 31` constructions, the `k`-th
observer constructed receives identity exactly `k`, on whatever subject and
whatever other operations are interleaved; the identities handed out are
strictly increasing, observers constructed at different addresses hold
different identities at the end, and every operation other than a construction
leaves the counter and every observer's identity unchanged (a construction
leaves the identity of every other observer unchanged). -/
theorem C10_identities_unique_and_increasing (w : World) (ops : List Op)
    (hzero : w.static_number_ = 0) (hbound : constructions ops < 2 ^ 31) :
    identitiesAssigned w ops
        = (List.range (constructions ops)).map (fun k => ((k + 1 : Nat) : Int))
    ∧ (run w ops).static_number_ = (constructions ops : Int)
    ∧ List.Pairwise (fun a b => a < b) (identitiesAssigned w ops)
    ∧ (∀ r1, r1 ∈ constructedRefs ops → ∀ r2, r2 ∈ constructedRefs ops → r1 ≠ r2 →
        ((run w ops).observers r1).number_ ≠ ((run w ops).observers r2).number_)
    ∧ (∀ (v : World) (op : Op), op.isConstruct = false →
        (op.step v).static_number_ = v.static_number_
        ∧ ∀ r, ((op.step v).observers r).number_ = (v.observers r).number_)
    ∧ (∀ (v : World) (self r : ObsRef) (subject : SubjRef), r ≠ self →
        ((Observer.Observer v self subject).observers r).number_
          = (v.observers r).number_) := by
  have hc := run_counter ops w 0 (by simpa using hzero) (by omega)
  have hd := run_identities_distinct ops w 0 [] (by simpa using hzero) (by omega)
    (fun r hr => absurd hr (List.not_mem_nil r))
    (fun r hr => absurd hr (List.not_mem_nil r))
  have hlist : identitiesAssigned w ops
      = (List.range (constructions ops)).map (fun k => ((k + 1 : Nat) : Int)) := by
    rw [hc.1]; exact List.map_congr_left fun k _ => by simp
  refine ⟨hlist, by simpa using hc.2, ?_, ?_, Op.step_identity_frame,
    fun v self r subject h => Observer.Observer_number_other v self r subject h⟩
  · rw [hlist, List.pairwise_map]
    exact (List.pairwise_lt_range _).imp (fun h => by push_cast; omega)
  · intro r1 h1 r2 h2 hne
    exact hd.2 r1 (by simpa using h1) r2 (by simpa using h2) hne

/-- C10 instance: three observers constructed on two subjects, with a
notification in between, receive the identities `1`, `2`, `3`. -/
theorem C10_identities_unique_and_increasing_witness :
    World.initial.static_number_ = 0
    ∧ constructions
        [Op.construct 1 0, Op.construct 2 0, Op.notify 0, Op.construct 3 5] < 2 ^ 31
    ∧ identitiesAssigned World.initial
        [Op.construct 1 0, Op.construct 2 0, Op.notify 0, Op.construct 3 5] = [1, 2, 3] :=
  ⟨rfl, by decide,
    (C10_identities_unique_and_increasing World.initial
      [Op.construct 1 0, Op.construct 2 0, Op.notify 0, Op.construct 3 5]
      rfl (by decide)).1.trans (by decide)⟩

/-! ## Further facts about the subject operations -/

theorem Subject.Attach_list (w : World) (s : SubjRef) (o : ObsRef) :
    ((Subject.Attach w s o).subjects s).list_observer_
      = (w.subjects s).list_observer_ ++ [o] := by
  simp [Subject.Attach]

theorem Subject.Attach_message (w : World) (s : SubjRef) (o : ObsRef) :
    ((Subject.Attach w s o).subjects s).message_ = (w.subjects s).message_ := by
  simp [Subject.Attach]

theorem Subject.Attach_other (w : World) (s r : SubjRef) (o : ObsRef) (h : r ≠ s) :
    (Subject.Attach w s o).subjects r = w.subjects r :=
  World.setSubject_other _ _ _ _ h

theorem Subject.Detach_other (w : World) (s r : SubjRef) (o : ObsRef) (h : r ≠ s) :
    (Subject.Detach w s o).subjects r = w.subjects r :=
  World.setSubject_other _ _ _ _ h

theorem Subject.CreateMessage_list (w : World) (s : SubjRef) (t : String) :
    ((Subject.CreateMessage w s t).subjects s).list_observer_
      = (w.subjects s).list_observer_ := by
  rw [Subject.CreateMessage_subject]

theorem Subject.CreateMessage_updates (w : World) (s : SubjRef) (t : String) :
    (Subject.CreateMessage w s t).updates
      = w.updates ++ (w.subjects s).list_observer_.map (fun o => (o, t)) := by
  unfold Subject.CreateMessage
  rw [Subject.Notify_updates]; simp; rfl

theorem Subject.CreateMessage_observers_mem (w : World) (s : SubjRef) (t : String)
    (o : ObsRef) (h : o ∈ (w.subjects s).list_observer_) :
    ((Subject.CreateMessage w s t).observers o).message_from_subject_ = t := by
  unfold Subject.CreateMessage
  rw [Subject.Notify_observers_mem _ _ _ (by simpa using h)]; simp

theorem Subject.CreateMessage_observers_not_mem (w : World) (s : SubjRef) (t : String)
    (o : ObsRef) (h : o ∉ (w.subjects s).list_observer_) :
    (Subject.CreateMessage w s t).observers o = w.observers o := by
  unfold Subject.CreateMessage
  rw [Subject.Notify_observers_not_mem _ _ _ (by simpa using h)]; rfl

theorem Subject.CreateMessage_other (w : World) (s r : SubjRef) (t : String) (h : r ≠ s) :
    (Subject.CreateMessage w s t).subjects r = w.subjects r := by
  unfold Subject.CreateMessage
  rw [Subject.Notify_subjects]; exact World.setSubject_other _ _ _ _ h

theorem callsOn_map (o : ObsRef) (l : List ObsRef) (m : String) :
    callsOn o (l.map (fun p => (p, m))) = List.replicate (l.count o) (o, m) := by
  induction l with
  | nil => rfl
  | cons x xs ih =>
    by_cases hx : x = o
    · subst hx
      simpa [callsOn, List.count_cons, List.replicate_succ] using ih
    · have hx2 : ¬ (x == o) = true := by simpa using hx
      simpa [callsOn, List.count_cons, hx, hx2] using ih

/-- C12: after `Attach(o)` has been called twice, one `Notify` calls `Update`
once per list entry, the two new entries of `o` included: the calls on `o`
number two more than the entries of `o` before (exactly two when `o` was not
attached), all of them last in the round and carrying the subject's message. -/
theorem C12_duplicate_attach_double_notification (w : World) (s : SubjRef) (o : ObsRef) :
    (Subject.Notify (Subject.Attach (Subject.Attach w s o) s o) s).updates
        = w.updates ++ ((w.subjects s).list_observer_ ++ [o, o]).map
            (fun p => (p, (w.subjects s).message_))
    ∧ callsOn o (((w.subjects s).list_observer_ ++ [o, o]).map
          (fun p => (p, (w.subjects s).message_)))
        = List.replicate ((w.subjects s).list_observer_.count o + 2)
            (o, (w.subjects s).message_)
    ∧ (callsOn o (((w.subjects s).list_observer_ ++ [o, o]).map
          (fun p => (p, (w.subjects s).message_)))).length
        = (callsOn o ((w.subjects s).list_observer_.map
            (fun p => (p, (w.subjects s).message_)))).length + 2
    ∧ (o ∉ (w.subjects s).list_observer_ →
        callsOn o (((w.subjects s).list_observer_ ++ [o, o]).map
          (fun p => (p, (w.subjects s).message_)))
          = [(o, (w.subjects s).message_), (o, (w.subjects s).message_)]) := by
  have hcount : ((w.subjects s).list_observer_ ++ [o, o]).count o
      = (w.subjects s).list_observer_.count o + 2 := by
    simp [List.count_append]
  refine ⟨?_, ?_, ?_, ?_⟩
  · rw [Subject.Notify_updates]
    simp [Subject.Attach]
    rfl
  · rw [callsOn_map, hcount]
  · rw [callsOn_map, callsOn_map, hcount]; simp
  · intro h
    rw [callsOn_map, hcount, List.count_eq_zero_of_not_mem h]
    rfl

/-- C13: `Observer::Update(msg)` writes only the cached message of its receiver:
afterwards that observer holds `msg` with its identity and bound subject as
before, every subject (message and list) and every other observer is unchanged,
the identity counter is unchanged, and the call history has grown by this one
call only, so no further `Update`, `Notify`, `Attach` or `Detach` took place. -/
theorem C13_Update_touches_only_cached_message (w : World) (o : ObsRef) (msg : String) :
    (Observer.Update w o msg).observers o
        = { w.observers o with message_from_subject_ := msg }
    ∧ ((Observer.Update w o msg).observers o).message_from_subject_ = msg
    ∧ ((Observer.Update w o msg).observers o).number_ = (w.observers o).number_
    ∧ ((Observer.Update w o msg).observers o).subject_ = (w.observers o).subject_
    ∧ (Observer.Update w o msg).subjects = w.subjects
    ∧ (∀ r, r ≠ o → (Observer.Update w o msg).observers r = w.observers r)
    ∧ (Observer.Update w o msg).static_number_ = w.static_number_
    ∧ (Observer.Update w o msg).updates = w.updates ++ [(o, msg)] := by
  refine ⟨?_, ?_, ?_, ?_, rfl, fun r hr => Observer.Update_observers_other w o r msg hr,
    rfl, rfl⟩ <;> simp [Observer.Update, World.setObserver, World.print]

/-- C16: after `Subject::Detach(o)` the reference `o` occurs nowhere in the list;
the list is the old one with the entries equal to `o` filtered out, so every
other entry keeps its multiplicity and its place relative to the others; the
message, the other subjects, the observers and the call history are unchanged. -/
theorem C16_Detach_filters_out_observer (w : World) (s : SubjRef) (o : ObsRef) :
    o ∉ ((Subject.Detach w s o).subjects s).list_observer_
    ∧ ((Subject.Detach w s o).subjects s).list_observer_
        = (w.subjects s).list_observer_.filter (fun x => decide (x ≠ o))
    ∧ (∀ p, p ≠ o → ((Subject.Detach w s o).subjects s).list_observer_.count p
        = (w.subjects s).list_observer_.count p)
    ∧ List.Sublist ((Subject.Detach w s o).subjects s).list_observer_
        (w.subjects s).list_observer_
    ∧ ((Subject.Detach w s o).subjects s).message_ = (w.subjects s).message_
    ∧ (∀ r, r ≠ s → (Subject.Detach w s o).subjects r = w.subjects r)
    ∧ (Subject.Detach w s o).observers = w.observers
    ∧ (Subject.Detach w s o).updates = w.updates := by
  refine ⟨?_, ?_, ?_, ?_, Subject.Detach_message w s o,
    fun r hr => Subject.Detach_other w s r o hr, rfl, rfl⟩
  · rw [Subject.Detach_list]; exact list_remove_not_mem _ _
  · rw [Subject.Detach_list]; exact list_remove_eq_filter _ _
  · intro p hp
    rw [Subject.Detach_list]; exact list_remove_count_other _ _ _ hp
  · rw [Subject.Detach_list, list_remove_eq_filter]
    exact List.filter_sublist _

/-- C17: `Subject::Notify` leaves every subject as it was (list content, order,
length and message) and the identity counter too, and every observer that is
not in the list keeps its whole state; on an empty list it makes no `Update`
call and changes no object, its only trace being the line `HowManyObserver`
prints. -/
theorem C17_Notify_frame (w : World) (s : SubjRef) :
    (Subject.Notify w s).subjects = w.subjects
    ∧ ((Subject.Notify w s).subjects s).list_observer_ = (w.subjects s).list_observer_
    ∧ ((Subject.Notify w s).subjects s).message_ = (w.subjects s).message_
    ∧ (Subject.Notify w s).static_number_ = w.static_number_
    ∧ (∀ o, o ∉ (w.subjects s).list_observer_ →
        (Subject.Notify w s).observers o = w.observers o)
    ∧ ((w.subjects s).list_observer_ = [] →
        (Subject.Notify w s).updates = w.updates
        ∧ (Subject.Notify w s).observers = w.observers
        ∧ (Subject.Notify w s).cout
            = w.cout ++ ["There are 0 observers in the list.\n"]) := by
  have hs := Subject.Notify_subjects w s
  refine ⟨hs, by rw [hs], by rw [hs], Subject.Notify_static w s,
    fun o ho => Subject.Notify_observers_not_mem w s o ho, fun h => ⟨?_, ?_, ?_⟩⟩
  · rw [Subject.Notify_updates, h]; simp
  · funext o
    exact Subject.Notify_observers_not_mem w s o (by rw [h]; exact List.not_mem_nil o)
  · simp only [Subject.Notify, Subject.HowManyObserver, h, World.print, List.foldl_nil,
      List.length_nil]
    rfl

/-- C18: `Subject::SomeBusinessLogic()` acts on the subjects, the observers, the
identity counter and the call history exactly as
`CreateMessage("change message message")`: the message becomes that text and
every listed observer is updated with it once, in list order; the console gets
the same lines followed by one more. -/
theorem C18_SomeBusinessLogic_is_CreateMessage (w : World) (s : SubjRef) :
    (Subject.SomeBusinessLogic w s).subjects
        = (Subject.CreateMessage w s "change message message").subjects
    ∧ (Subject.SomeBusinessLogic w s).observers
        = (Subject.CreateMessage w s "change message message").observers
    ∧ (Subject.SomeBusinessLogic w s).static_number_
        = (Subject.CreateMessage w s "change message message").static_number_
    ∧ (Subject.SomeBusinessLogic w s).updates
        = (Subject.CreateMessage w s "change message message").updates
    ∧ (Subject.SomeBusinessLogic w s).cout
        = (Subject.CreateMessage w s "change message message").cout
            ++ ["I'm about to do some thing important\n"]
    ∧ ((Subject.SomeBusinessLogic w s).subjects s).message_ = "change message message"
    ∧ ((Subject.SomeBusinessLogic w s).subjects s).list_observer_
        = (w.subjects s).list_observer_
    ∧ (Subject.SomeBusinessLogic w s).updates
        = w.updates ++ (w.subjects s).list_observer_.map
            (fun o => (o, "change message message"))
    ∧ (∀ o, o ∈ (w.subjects s).list_observer_ →
        ((Subject.SomeBusinessLogic w s).observers o).message_from_subject_
          = "change message message") := by
  have hsub : (Subject.SomeBusinessLogic w s).subjects
      = (Subject.CreateMessage w s "change message message").subjects := rfl
  have hobs : (Subject.SomeBusinessLogic w s).observers
      = (Subject.CreateMessage w s "change message message").observers := rfl
  have hupd : (Subject.SomeBusinessLogic w s).updates
      = (Subject.CreateMessage w s "change message message").updates := rfl
  refine ⟨hsub, hobs, rfl, hupd, rfl, ?_, ?_, ?_, ?_⟩
  · rw [hsub, Subject.CreateMessage_subject]
  · rw [hsub, Subject.CreateMessage_list]
  · rw [hupd, Subject.CreateMessage_updates]
  · intro o ho
    rw [hobs, Subject.CreateMessage_observers_mem w s _ o ho]

/-! ## Which operations can put an observer into a list -/

theorem Observer.Observer_subjects (w : World) (self : ObsRef) (subject : SubjRef) :
    (Observer.Observer w self subject).subjects = (Subject.Attach w subject self).subjects := by
  simp [Observer.Observer, Subject.Attach, World.setObserver, World.setSubject, World.print]

theorem Observer.Observer_observers_other (w : World) (self r : ObsRef) (subject : SubjRef)
    (h : r ≠ self) : (Observer.Observer w self subject).observers r = w.observers r := by
  simp [Observer.Observer, Subject.Attach, World.setObserver, World.setSubject, World.print, h]

theorem Observer.Observer_subject_self (w : World) (self : ObsRef) (subject : SubjRef) :
    ((Observer.Observer w self subject).observers self).subject_ = subject := by
  simp [Observer.Observer, Subject.Attach, World.setObserver, World.setSubject, World.print]

theorem Subject.Attach_list_any (w : World) (s r : SubjRef) (o : ObsRef) :
    ((Subject.Attach w s o).subjects r).list_observer_
      = if r = s then (w.subjects r).list_observer_ ++ [o]
        else (w.subjects r).list_observer_ := by
  by_cases h : r = s
  · subst h; simp [Subject.Attach]
  · simp [h, Subject.Attach_other w s r o h]

theorem Subject.Detach_list_any (w : World) (s r : SubjRef) (o : ObsRef) :
    ((Subject.Detach w s o).subjects r).list_observer_
      = if r = s then list_remove (w.subjects r).list_observer_ o
        else (w.subjects r).list_observer_ := by
  by_cases h : r = s
  · subst h; simp [Subject.Detach]
  · simp [h, Subject.Detach_other w s r o h]

theorem Subject.CreateMessage_list_any (w : World) (s r : SubjRef) (t : String) :
    ((Subject.CreateMessage w s t).subjects r).list_observer_
      = (w.subjects r).list_observer_ := by
  by_cases h : r = s
  · subst h; exact Subject.CreateMessage_list w r t
  · rw [Subject.CreateMessage_other w s r t h]

theorem list_remove_mem (l : List ObsRef) (v p : ObsRef) (h : p ∈ list_remove l v) : p ∈ l := by
  rw [list_remove_eq_filter] at h
  exact (List.mem_filter.mp h).1

/-- An observer found in a list after one operation was there before, unless the
operation is `Attach` of that observer on that subject or a construction at its
address on that subject. -/
theorem Op.step_mem_list (w : World) (op : Op) (s : SubjRef) (o : ObsRef)
    (h : o ∈ ((op.step w).subjects s).list_observer_) :
    o ∈ (w.subjects s).list_observer_ ∨ Op.attaches s o op = true := by
  cases op with
  | construct self subject =>
    simp only [Op.step] at h
    rw [Observer.Observer_subjects, Subject.Attach_list_any] at h
    by_cases hs : s = subject
    · rw [if_pos hs] at h
      rcases List.mem_append.mp h with h1 | h1
      · exact Or.inl h1
      · exact Or.inr (by simp [Op.attaches, hs, List.mem_singleton.mp h1])
    · rw [if_neg hs] at h; exact Or.inl h
  | attach s1 o1 =>
    simp only [Op.step] at h
    rw [Subject.Attach_list_any] at h
    by_cases hs : s = s1
    · rw [if_pos hs] at h
      rcases List.mem_append.mp h with h1 | h1
      · exact Or.inl h1
      · exact Or.inr (by simp [Op.attaches, hs, List.mem_singleton.mp h1])
    · rw [if_neg hs] at h; exact Or.inl h
  | detach s1 o1 =>
    simp only [Op.step] at h
    rw [Subject.Detach_list_any] at h
    by_cases hs : s = s1
    · rw [if_pos hs] at h; exact Or.inl (list_remove_mem _ _ _ h)
    · rw [if_neg hs] at h; exact Or.inl h
  | notify s1 =>
    simp only [Op.step] at h
    rw [Subject.Notify_subjects] at h; exact Or.inl h
  | createMessage s1 message =>
    simp only [Op.step] at h
    rw [Subject.CreateMessage_list_any] at h; exact Or.inl h
  | howManyObserver s1 => exact Or.inl h
  | someBusinessLogic s1 =>
    have h2 : o ∈ ((Subject.CreateMessage w s1 "change message message").subjects
        s).list_observer_ := h
    rw [Subject.CreateMessage_list_any] at h2; exact Or.inl h2
  | update o1 message => exact Or.inl h
  | removeMeFromList o1 =>
    have h2 : o ∈ ((Subject.Detach w (w.observers o1).subject_ o1).subjects
        s).list_observer_ := h
    rw [Subject.Detach_list_any] at h2
    by_cases hs : s = (w.observers o1).subject_
    · rw [if_pos hs] at h2; exact Or.inl (list_remove_mem _ _ _ h2)
    · rw [if_neg hs] at h2; exact Or.inl h2
  | destroyObserver o1 => exact Or.inl h
  | destroySubject s1 => exact Or.inl h

theorem run_not_mem_list (ops : List Op) (w : World) (s : SubjRef) (o : ObsRef)
    (habsent : o ∉ (w.subjects s).list_observer_)
    (hops : ∀ op, op ∈ ops → Op.attaches s o op = false) :
    o ∉ ((run w ops).subjects s).list_observer_ := by
  induction ops generalizing w with
  | nil => exact habsent
  | cons op rest ih =>
    refine ih (op.step w) (fun hmem => ?_) (fun p hp => hops p (List.mem_cons_of_mem _ hp))
    rcases Op.step_mem_list w op s o hmem with h1 | h1
    · exact habsent h1
    · rw [hops op (List.mem_cons_self _ _)] at h1; exact absurd h1 (by decide)

/-- C14 (as stated, refuted): observers `1` and `2` are constructed on subject
`0` and `2` removes itself, so `2` is detached; the public call
`Subject::Attach` with `2` then puts it back into the list. -/
theorem C14_counterexample_Attach_reattaches :
    2 ∉ ((Observer.RemoveMeFromList twoObservers 2).subjects 0).list_observer_
    ∧ 2 ∈ ((Op.step (Observer.RemoveMeFromList twoObservers 2)
        (Op.attach 0 2)).subjects 0).list_observer_
    ∧ ((Subject.Attach (Observer.RemoveMeFromList twoObservers 2) 0 2).subjects
        0).list_observer_ = [1, 2] := by
  decide

/-- C14 (amended): once `o` is not in the list of subject `s` (as after
`o.RemoveMeFromList()` for the subject `o` is bound to), no sequence of
operations puts it back unless it contains `s.Attach(o)` itself or a new
construction at `o` on `s`: `Attach` of another observer, `Detach`, `Notify`,
`CreateMessage`, `SomeBusinessLogic`, `Update`, `RemoveMeFromList` and the
destructors never do; `s.Attach(o)` does. -/
theorem C14_detached_stays_out_without_Attach (w : World) (s : SubjRef) (o : ObsRef)
    (ops : List Op)
    (habsent : o ∉ (w.subjects s).list_observer_)
    (hops : ∀ op, op ∈ ops → Op.attaches s o op = false) :
    o ∉ ((run w ops).subjects s).list_observer_
    ∧ o ∈ ((Subject.Attach (run w ops) s o).subjects s).list_observer_
    ∧ (∀ v : World, o ∉ ((Observer.RemoveMeFromList v o).subjects
        (v.observers o).subject_).list_observer_) := by
  refine ⟨run_not_mem_list ops w s o habsent hops, ?_, fun v => ?_⟩
  · rw [Subject.Attach_list]; simp
  · rw [(Observer.RemoveMeFromList_subject v o).1]
    exact list_remove_not_mem _ _

/-- C14 instance: after observer `2` has removed itself from subject `0`, a
notification, the attachment of another observer, a new message, a removal and
a direct `Update` leave `2` out of the list. -/
theorem C14_detached_stays_out_without_Attach_witness :
    2 ∉ ((Observer.RemoveMeFromList twoObservers 2).subjects 0).list_observer_
    ∧ (∀ op, op ∈ [Op.notify 0, Op.attach 0 3, Op.createMessage 0 "x",
          Op.removeMeFromList 1, Op.update 2 "y"] → Op.attaches 0 2 op = false)
    ∧ 2 ∉ ((run (Observer.RemoveMeFromList twoObservers 2)
        [Op.notify 0, Op.attach 0 3, Op.createMessage 0 "x",
          Op.removeMeFromList 1, Op.update 2 "y"]).subjects 0).list_observer_ :=
  ⟨by decide, by decide,
    (C14_detached_stays_out_without_Attach (Observer.RemoveMeFromList twoObservers 2) 0 2
      [Op.notify 0, Op.attach 0 3, Op.createMessage 0 "x",
        Op.removeMeFromList 1, Op.update 2 "y"] (by decide) (by decide)).1⟩

/-! ## The driver -/

theorem Subject.CreateMessage_subject_of (w : World) (s : SubjRef) (t : String) (r : ObsRef) :
    ((Subject.CreateMessage w s t).observers r).subject_ = (w.observers r).subject_ := by
  unfold Subject.CreateMessage
  rw [Subject.Notify_eq_loop, (notifyLoop_observers_frame _ _ _ r).2]; rfl

/-- Constructing an observer on `s` extends the list of `s`, makes no call and
binds the new observer to `s`, leaving earlier bindings to `s` in place. -/
theorem track_construct (w : World) (s : SubjRef) (self : ObsRef) (L B : List ObsRef)
    (U : List (ObsRef × String))
    (h : (w.subjects s).list_observer_ = L ∧ w.updates = U
      ∧ ∀ o, o ∈ B → (w.observers o).subject_ = s) :
    ((Observer.Observer w self s).subjects s).list_observer_ = L ++ [self]
    ∧ (Observer.Observer w self s).updates = U
    ∧ ∀ o, o ∈ self :: B → ((Observer.Observer w self s).observers o).subject_ = s := by
  refine ⟨?_, h.2.1, fun o ho => ?_⟩
  · rw [Observer.Observer_subjects, Subject.Attach_list, h.1]
  · by_cases e : o = self
    · rw [e]; exact Observer.Observer_subject_self w self s
    · rw [Observer.Observer_observers_other w self o s e]
      exact h.2.2 o (by simpa [e] using ho)

/-- `CreateMessage(t)` on `s` keeps the list and the bindings and calls `Update`
once per entry with `t`. -/
theorem track_create (w : World) (s : SubjRef) (t : String) (L B : List ObsRef)
    (U : List (ObsRef × String))
    (h : (w.subjects s).list_observer_ = L ∧ w.updates = U
      ∧ ∀ o, o ∈ B → (w.observers o).subject_ = s) :
    ((Subject.CreateMessage w s t).subjects s).list_observer_ = L
    ∧ (Subject.CreateMessage w s t).updates = U ++ L.map (fun o => (o, t))
    ∧ ∀ o, o ∈ B → ((Subject.CreateMessage w s t).observers o).subject_ = s := by
  refine ⟨?_, ?_, fun o ho => ?_⟩
  · rw [Subject.CreateMessage_list, h.1]
  · rw [Subject.CreateMessage_updates, h.1, h.2.1]
  · rw [Subject.CreateMessage_subject_of]; exact h.2.2 o ho

/-- `RemoveMeFromList` of an observer bound to `s` erases it from the list of
`s`, makes no call and keeps the bindings. -/
theorem track_remove (w : World) (s : SubjRef) (self : ObsRef) (L B : List ObsRef)
    (U : List (ObsRef × String))
    (h : (w.subjects s).list_observer_ = L ∧ w.updates = U
      ∧ ∀ o, o ∈ B → (w.observers o).subject_ = s)
    (hself : self ∈ B) :
    ((Observer.RemoveMeFromList w self).subjects s).list_observer_ = list_remove L self
    ∧ (Observer.RemoveMeFromList w self).updates = U
    ∧ ∀ o, o ∈ B → ((Observer.RemoveMeFromList w self).observers o).subject_ = s := by
  have hb := h.2.2 self hself
  refine ⟨?_, h.2.1, fun o ho => h.2.2 o ho⟩
  have h1 := (Observer.RemoveMeFromList_subject w self).1
  rw [hb] at h1
  rw [h1, h.1]

/-- The call history of `main` when the five observers get distinct addresses. -/
theorem Program.main_updates (w : World) (subject : SubjRef) (o1 o2 o3 o4 o5 : ObsRef)
    (hdistinct : [o1, o2, o3, o4, o5].Nodup) :
    (Program.main w subject o1 o2 o3 o4 o5).updates
      = w.updates ++ [(o1, "hello world"), (o2, "hello world"), (o3, "hello world"),
          (o1, "The weather is hot today! :p"), (o2, "The weather is hot today! :p"),
          (o1, "My new car is great! ;)"), (o4, "My new car is great! ;)"),
          (o5, "My new car is great! ;)")] := by
  simp only [List.nodup_cons, List.mem_cons, List.mem_singleton, not_or, List.not_mem_nil,
    not_false_eq_true, List.nodup_nil, and_true] at hdistinct
  obtain ⟨⟨h12, h13, h14, h15⟩, ⟨h23, h24, h25⟩, ⟨h34, h35⟩, h45⟩ := hdistinct
  have k0 : ((Subject.Subject w subject).subjects subject).list_observer_ = []
      ∧ (Subject.Subject w subject).updates = w.updates
      ∧ ∀ o, o ∈ ([] : List ObsRef) → ((Subject.Subject w subject).observers o).subject_
          = subject :=
    ⟨by simp [Subject.Subject], rfl, fun o ho => absurd ho (List.not_mem_nil o)⟩
  have k1 := track_construct _ subject o1 _ _ _ k0
  have k2 := track_construct _ subject o2 _ _ _ k1
  have k3 := track_construct _ subject o3 _ _ _ k2
  have k4 := track_create _ subject "hello world" _ _ _ k3
  have k5 := track_remove _ subject o3 _ _ _ k4 (by simp)
  have k6 := track_create _ subject "The weather is hot today! :p" _ _ _ k5
  have k7 := track_construct _ subject o4 _ _ _ k6
  have k8 := track_remove _ subject o2 _ _ _ k7 (by simp)
  have k9 := track_construct _ subject o5 _ _ _ k8
  have k10 := track_create _ subject "My new car is great! ;)" _ _ _ k9
  have hfinal := k10.2.1
  simp [list_remove, h12, h13, h14, h15, h23, h24, h25, h34, h35, h45,
    Ne.symm h12, Ne.symm h13, Ne.symm h23, Ne.symm h24] at hfinal
  exact hfinal

/-- C11: on a fresh subject `s` and for pairwise distinct observers `o1 .. o5`:
attaching `o1`, `o2`, `o3` and `CreateMessage(t1)` makes exactly the calls on
`o1`, `o2`, `o3`, once each in that order, with `t1`; after `Detach(o3)`,
`CreateMessage(t2)` calls exactly `o1`, `o2`; after `Attach(o4)`, `Detach(o2)`,
`Attach(o5)`, `CreateMessage(t3)` calls exactly `o1`, `o4`, `o5`, while `o2` and
`o3` keep the last text they received (`t2` and `t1`).  The function `main`, which
goes through the same rounds with constructors and `RemoveMeFromList`, makes
exactly these eight calls with its three texts. -/
theorem C11_driver_scenario (w : World) (s : SubjRef) (o1 o2 o3 o4 o5 : ObsRef)
    (t1 t2 t3 : String)
    (hfresh : (w.subjects s).list_observer_ = [])
    (hdistinct : [o1, o2, o3, o4, o5].Nodup) :
    (scenarioRound1 w s o1 o2 o3 t1).updates
        = w.updates ++ [(o1, t1), (o2, t1), (o3, t1)]
    ∧ (scenarioRound2 w s o1 o2 o3 t1 t2).updates
        = (scenarioRound1 w s o1 o2 o3 t1).updates ++ [(o1, t2), (o2, t2)]
    ∧ (scenarioRound3 w s o1 o2 o3 o4 o5 t1 t2 t3).updates
        = (scenarioRound2 w s o1 o2 o3 t1 t2).updates ++ [(o1, t3), (o4, t3), (o5, t3)]
    ∧ ((scenarioRound3 w s o1 o2 o3 o4 o5 t1 t2 t3).observers o2).message_from_subject_ = t2
    ∧ ((scenarioRound3 w s o1 o2 o3 o4 o5 t1 t2 t3).observers o3).message_from_subject_ = t1
    ∧ (Program.main w s o1 o2 o3 o4 o5).updates
        = w.updates ++ [(o1, "hello world"), (o2, "hello world"), (o3, "hello world"),
            (o1, "The weather is hot today! :p"), (o2, "The weather is hot today! :p"),
            (o1, "My new car is great! ;)"), (o4, "My new car is great! ;)"),
            (o5, "My new car is great! ;)")] := by
  have hmain := Program.main_updates w s o1 o2 o3 o4 o5 hdistinct
  simp only [List.nodup_cons, List.mem_cons, List.mem_singleton, not_or, List.not_mem_nil,
    not_false_eq_true, List.nodup_nil, and_true] at hdistinct
  obtain ⟨⟨h12, h13, h14, h15⟩, ⟨h23, h24, h25⟩, ⟨h34, h35⟩, h45⟩ := hdistinct
  -- the list before and after each round
  have a3 : ((Subject.Attach (Subject.Attach (Subject.Attach w s o1) s o2) s o3).subjects
      s).list_observer_ = [o1, o2, o3] := by
    rw [Subject.Attach_list, Subject.Attach_list, Subject.Attach_list, hfresh]; rfl
  have l1 : ((scenarioRound1 w s o1 o2 o3 t1).subjects s).list_observer_ = [o1, o2, o3] := by
    unfold scenarioRound1; rw [Subject.CreateMessage_list, a3]
  have d1 : ((Subject.Detach (scenarioRound1 w s o1 o2 o3 t1) s o3).subjects
      s).list_observer_ = [o1, o2] := by
    rw [Subject.Detach_list, l1]; simp [list_remove, h13, h23]
  have l2 : ((scenarioRound2 w s o1 o2 o3 t1 t2).subjects s).list_observer_ = [o1, o2] := by
    unfold scenarioRound2; rw [Subject.CreateMessage_list, d1]
  have d2 : ((Subject.Attach (Subject.Detach (Subject.Attach
      (scenarioRound2 w s o1 o2 o3 t1 t2) s o4) s o2) s o5).subjects s).list_observer_
        = [o1, o4, o5] := by
    rw [Subject.Attach_list, Subject.Detach_list, Subject.Attach_list, l2]
    simp [list_remove, h12, Ne.symm h24]
  -- what `o2` and `o3` hold after the second round
  have m3 : ((scenarioRound2 w s o1 o2 o3 t1 t2).observers o3).message_from_subject_ = t1 := by
    unfold scenarioRound2
    rw [Subject.CreateMessage_observers_not_mem _ _ _ _ (by
      rw [d1]; simp [Ne.symm h13, Ne.symm h23])]
    show ((scenarioRound1 w s o1 o2 o3 t1).observers o3).message_from_subject_ = t1
    unfold scenarioRound1
    exact Subject.CreateMessage_observers_mem _ _ _ _ (by rw [a3]; simp)
  have m2 : ((scenarioRound2 w s o1 o2 o3 t1 t2).observers o2).message_from_subject_ = t2 := by
    unfold scenarioRound2
    exact Subject.CreateMessage_observers_mem _ _ _ _ (by rw [d1]; simp)
  refine ⟨?_, ?_, ?_, ?_, ?_, hmain⟩
  · unfold scenarioRound1
    rw [Subject.CreateMessage_updates, a3]; rfl
  · show (Subject.CreateMessage (Subject.Detach (scenarioRound1 w s o1 o2 o3 t1) s o3)
      s t2).updates = _
    rw [Subject.CreateMessage_updates, d1]; rfl
  · unfold scenarioRound3
    rw [Subject.CreateMessage_updates, d2]; rfl
  · unfold scenarioRound3
    rw [Subject.CreateMessage_observers_not_mem _ _ _ _ (by
      rw [d2]; simp [Ne.symm h12, h24, h25])]
    exact m2
  · unfold scenarioRound3
    rw [Subject.CreateMessage_observers_not_mem _ _ _ _ (by
      rw [d2]; simp [Ne.symm h13, h34, h35])]
    exact m3

/-- C11 instance: the scenario on the initial state with the observers `1 .. 5`
on subject `0`; the third round calls `1`, `4`, `5`. -/
theorem C11_driver_scenario_witness :
    (World.initial.subjects 0).list_observer_ = []
    ∧ [1, 2, 3, 4, 5].Nodup
    ∧ (scenarioRound3 World.initial 0 1 2 3 4 5 "hello world" "weather" "car").updates
        = [(1, "hello world"), (2, "hello world"), (3, "hello world"),
            (1, "weather"), (2, "weather"), (1, "car"), (4, "car"), (5, "car")] :=
  ⟨rfl, by decide,
    ((C11_driver_scenario World.initial 0 1 2 3 4 5 "hello world" "weather" "car"
      rfl (by decide)).2.2.1).trans (by decide)⟩

/-! ## Destruction -/

@[simp] theorem Observer.Update_destroyedObservers (w : World) (o : ObsRef) (m : String) :
    (Observer.Update w o m).destroyedObservers = w.destroyedObservers := rfl

/-- While every receiver is alive, the checked loop is the loop of `Notify`. -/
theorem Checked.notifyEach_of_alive (s : SubjRef) (l : List ObsRef) (acc : World)
    (halive : ∀ p, p ∈ l → p ∉ acc.destroyedObservers) :
    Checked.notifyEach s acc l = .ok (notifyLoop s acc l) := by
  induction l generalizing acc with
  | nil => rfl
  | cons x xs ih =>
    have hx : x ∉ acc.destroyedObservers := halive x (List.mem_cons_self _ _)
    simp only [Checked.notifyEach, Checked.Update, if_neg hx]
    exact ih (Observer.Update acc x (acc.subjects s).message_)
      (fun p hp => halive p (List.mem_cons_of_mem _ hp))

/-- When `o` is destroyed and listed and the other receivers are alive, the
checked loop ends at the call made on `o`. -/
theorem Checked.notifyEach_of_destroyed (s : SubjRef) (o : ObsRef) (l D : List ObsRef)
    (acc : World) (hacc : acc.destroyedObservers = o :: D)
    (halive : ∀ p, p ∈ l → p ∉ D) (hmem : o ∈ l) :
    Checked.notifyEach s acc l = .error (.destroyedObserver o) := by
  induction l generalizing acc with
  | nil => exact absurd hmem (List.not_mem_nil o)
  | cons x xs ih =>
    by_cases hx : x = o
    · subst hx
      have hd : x ∈ acc.destroyedObservers := by rw [hacc]; exact List.mem_cons_self _ _
      simp only [Checked.notifyEach, Checked.Update, if_pos hd]
    · have hd : x ∉ acc.destroyedObservers := by
        rw [hacc]
        intro hin
        rcases List.mem_cons.mp hin with e | e
        · exact hx e
        · exact halive x (List.mem_cons_self _ _) e
      have hrest : o ∈ xs := by
        rcases List.mem_cons.mp hmem with e | e
        · exact absurd e.symm hx
        · exact e
      simp only [Checked.notifyEach, Checked.Update, if_neg hd]
      exact ih (Observer.Update acc x (acc.subjects s).message_) hacc
        (fun p hp => halive p (List.mem_cons_of_mem _ hp)) hrest

/-- On a live subject whose listed observers are all alive, the checked `Notify`
is `Subject::Notify`. -/
theorem Checked.Notify_of_alive (w : World) (s : SubjRef)
    (hs : s ∉ w.destroyedSubjects)
    (halive : ∀ p, p ∈ (w.subjects s).list_observer_ → p ∉ w.destroyedObservers) :
    Checked.Notify w s = .ok (Subject.Notify w s) := by
  unfold Checked.Notify
  rw [if_neg hs, Subject.Notify_eq_loop]
  exact Checked.notifyEach_of_alive s _ _ halive

/-- Observers `1` and `2` live on subject `0`; once `1` is destroyed, the next
`Notify` is a call on the destroyed `1`, and once the subject is destroyed,
`RemoveMeFromList` of `2` uses the destroyed subject. -/
theorem Checked.after_destruction_example :
    Checked.Notify twoObservers 0 = .ok (Subject.Notify twoObservers 0)
    ∧ Checked.Notify (Observer.destructor twoObservers 1) 0
        = .error (.destroyedObserver 1)
    ∧ Checked.RemoveMeFromList (Subject.destructor twoObservers 0) 2
        = .error (.destroyedSubject 0) :=
  ⟨rfl, rfl, rfl⟩

/-- C15: the destructor of `Observer` does not detach.  It ends the lifetime of
`o` and leaves every subject (list and message), every other observer and the
call history as they were, so an observer destroyed while attached is still a
list entry; the next `Notify` on its subject, which was a defined round of
`Update` calls before, now makes the `Update` call on the destroyed `o`, which
is undefined.  The destructor of `Subject` ends the lifetime of the subject
only: every observer keeps its state and stays alive, every other subject is
unchanged, and a later `RemoveMeFromList` of an observer bound to it uses the
destroyed subject. -/
theorem C15_destructors_do_not_detach (w : World) (s : SubjRef) (o : ObsRef) :
    (Observer.destructor w o).subjects = w.subjects
    ∧ ((Observer.destructor w o).subjects s).list_observer_ = (w.subjects s).list_observer_
    ∧ ((Observer.destructor w o).subjects s).message_ = (w.subjects s).message_
    ∧ (∀ r, r ≠ o → (Observer.destructor w o).observers r = w.observers r)
    ∧ (Observer.destructor w o).updates = w.updates
    ∧ (Observer.destructor w o).destroyedObservers = o :: w.destroyedObservers
    ∧ (Observer.destructor w o).destroyedSubjects = w.destroyedSubjects
    ∧ (o ∈ (w.subjects s).list_observer_ →
        o ∈ ((Observer.destructor w o).subjects s).list_observer_)
    ∧ (s ∉ w.destroyedSubjects →
        (∀ p, p ∈ (w.subjects s).list_observer_ → p ∉ w.destroyedObservers) →
        o ∈ (w.subjects s).list_observer_ →
          Checked.Notify w s = .ok (Subject.Notify w s)
          ∧ Checked.Notify (Observer.destructor w o) s = .error (.destroyedObserver o))
    ∧ (Subject.destructor w s).observers = w.observers
    ∧ (Subject.destructor w s).destroyedObservers = w.destroyedObservers
    ∧ (Subject.destructor w s).destroyedSubjects = s :: w.destroyedSubjects
    ∧ (∀ r, r ≠ s → (Subject.destructor w s).subjects r = w.subjects r)
    ∧ (Subject.destructor w s).updates = w.updates
    ∧ (o ∉ w.destroyedObservers → (w.observers o).subject_ = s →
        Checked.RemoveMeFromList (Subject.destructor w s) o
          = .error (.destroyedSubject s)) := by
  refine ⟨rfl, rfl, rfl, fun _ _ => rfl, rfl, rfl, rfl, fun h => h, ?_, rfl, rfl, rfl,
    fun _ _ => rfl, rfl, ?_⟩
  · intro hs halive ho
    refine ⟨Checked.Notify_of_alive w s hs halive, ?_⟩
    have hs2 : s ∉ (Observer.destructor w o).destroyedSubjects := hs
    unfold Checked.Notify
    rw [if_neg hs2]
    exact Checked.notifyEach_of_destroyed s o _ w.destroyedObservers _ rfl halive ho
  · intro ho hb
    have ho2 : o ∉ (Subject.destructor w s).destroyedObservers := ho
    have hb2 : ((Subject.destructor w s).observers o).subject_
        ∈ (Subject.destructor w s).destroyedSubjects := by
      show (w.observers o).subject_ ∈ s :: w.destroyedSubjects
      rw [hb]; exact List.mem_cons_self _ _
    unfold Checked.RemoveMeFromList
    rw [if_neg ho2, if_pos hb2]
    show Except.error (Fault.destroyedSubject (w.observers o).subject_) = _
    rw [hb]
